import Mathlib

/-!
Verification of the signal-to-geometry core of an audio-reactive
oscilloscope visualizer (React/TypeScript + a small Express backend).

The numeric model of each component is embedded shallowly:

* JavaScript `number` arithmetic is modelled by `ℚ` where the source only
  performs field operations and comparisons on values that stay rational,
  and by `ℝ` where the source uses trigonometry (`Math.sin`, `Math.PI`,
  quaternion rotation).  Floating-point rounding is outside the scope of
  the properties treated here.
* `Float32Array` buffers are modelled as `List` values built in the same
  loop order as the source.
* A JavaScript expression that can produce `NaN` (out-of-bounds array
  reads used by the generators' fill loops, `0/0`) is modelled with
  `Option`: `none` stands for `NaN`/`undefined`, `some r` for a finite
  value `r`.
* `Date.now()` timestamps are modelled as `ℤ` (milliseconds).
-/

/-- JavaScript clamp pattern `Math.max (-1) (Math.min 1 x)` generalized:
`jsClamp lo hi x = max lo (min hi x)`. -/
def jsClamp {α : Type} [LinearOrder α] (lo hi x : α) : α :=
  max lo (min hi x)

/-- The exponential-smoothing update `v += (target - v) * alpha` used
throughout the source. -/
def smoothLerp {α : Type} [Ring α] (alpha v target : α) : α :=
  v + (target - v) * alpha

/-- JavaScript truncation toward zero, as used by the `%` operator. -/
noncomputable def jsTrunc (x : ℝ) : ℤ :=
  if 0 ≤ x then ⌊x⌋ else ⌈x⌉

/-- JavaScript remainder `x % y` for `y > 0`: the result has the sign of
the dividend, `x % y = x - y * trunc (x / y)`. -/
noncomputable def jsMod (x y : ℝ) : ℝ :=
  x - y * jsTrunc (x / y)

namespace SignalGenerator

/-- Configuration record of `SignalGenerator.generate`
(`src/src/utils/signalGenerator.ts`). -/
structure SignalConfig where
  frequency : ℝ
  amplitude : ℝ
  phase : ℝ
  offset : ℝ
  sampleRate : ℝ
  duration : ℝ

/-- The supported waveform types. -/
inductive WaveformType
  | sine
  | square
  | sawtooth
  | triangle
  | noise
deriving DecidableEq

/-- Buffer length: `Math.floor(config.sampleRate * config.duration)`. -/
noncomputable def numSamples (c : SignalConfig) : ℕ :=
  (⌊c.sampleRate * c.duration⌋).toNat

/-- One sine sample: `amplitude * sin(2π·frequency·t + phase) + offset`
with `t = i / sampleRate`. -/
noncomputable def sineSample (c : SignalConfig) (i : ℕ) : ℝ :=
  c.amplitude * Real.sin (2 * Real.pi * c.frequency * ((i : ℝ) / c.sampleRate) + c.phase)
    + c.offset

/-- The phase-shifted time folded into one period, shared by the square,
sawtooth and triangle generators:
`phaseTime = (t + phase/(2π)) % period` with `period = 1/frequency`. -/
noncomputable def phaseTime (c : SignalConfig) (i : ℕ) : ℝ :=
  jsMod ((i : ℝ) / c.sampleRate + c.phase / (2 * Real.pi)) (1 / c.frequency)

/-- One square sample: `amplitude * (phaseTime < period/2 ? 1 : -1) + offset`. -/
noncomputable def squareSample (c : SignalConfig) (i : ℕ) : ℝ :=
  c.amplitude * (if phaseTime c i < (1 / c.frequency) / 2 then 1 else -1) + c.offset

/-- One sawtooth sample: `amplitude * (2*(phaseTime/period) - 1) + offset`. -/
noncomputable def sawtoothSample (c : SignalConfig) (i : ℕ) : ℝ :=
  c.amplitude * (2 * (phaseTime c i / (1 / c.frequency)) - 1) + c.offset

/-- One triangle sample, from `normalized = phaseTime/period`:
`amplitude * (normalized < 0.5 ? 4*normalized - 1 : 3 - 4*normalized) + offset`. -/
noncomputable def triangleSample (c : SignalConfig) (i : ℕ) : ℝ :=
  c.amplitude *
    (if phaseTime c i / (1 / c.frequency) < 1 / 2 then
      4 * (phaseTime c i / (1 / c.frequency)) - 1
    else
      3 - 4 * (phaseTime c i / (1 / c.frequency))) + c.offset

/-- One noise sample: `amplitude * (random()*2 - 1) + offset`; the stream of
`Math.random()` draws is an explicit parameter `rnd` with values in `[0,1)`. -/
noncomputable def noiseSample (c : SignalConfig) (rnd : ℕ → ℝ) (i : ℕ) : ℝ :=
  c.amplitude * (rnd i * 2 - 1) + c.offset

/-- `SignalGenerator.generate(type, config)`: a buffer of
`numSamples` samples of the selected waveform. -/
noncomputable def generate (t : WaveformType) (c : SignalConfig) (rnd : ℕ → ℝ) : List ℝ :=
  (List.range (numSamples c)).map fun i =>
    match t with
    | .sine => sineSample c i
    | .square => squareSample c i
    | .sawtooth => sawtoothSample c i
    | .triangle => triangleSample c i
    | .noise => noiseSample c rnd i

/-- Trigger edge selector of `findTriggerPoint`. -/
inductive Edge
  | rising
  | falling
deriving DecidableEq

/-- The crossing test of one loop iteration of `findTriggerPoint`:
rising edge fires when `prev < level ∧ level ≤ cur`, falling edge when
`level < prev ∧ cur ≤ level`.  Samples are modelled as `ℚ`. -/
def crossing (edge : Edge) (level prev cur : ℚ) : Bool :=
  match edge with
  | .rising => decide (prev < level) && decide (level ≤ cur)
  | .falling => decide (level < prev) && decide (cur ≤ level)

/-- The scan loop of `findTriggerPoint`, carrying the previous sample and
the current index; returns the index of the first crossing, else 0. -/
def findAux (level : ℚ) (edge : Edge) : List ℚ → ℚ → ℕ → ℕ
  | [], _, _ => 0
  | cur :: rest, prev, i =>
    if crossing edge level prev cur then i else findAux level edge rest cur (i + 1)

/-- `SignalGenerator.findTriggerPoint(buffer, level, edge)`: scans from
index 1 and returns the first index whose adjacent pair crosses `level`;
returns 0 when no crossing is found. -/
def findTriggerPoint (buffer : List ℚ) (level : ℚ) (edge : Edge) : ℕ :=
  match buffer with
  | [] => 0
  | p :: rest => findAux level edge rest p 1

/-- The predicate "the buffer crosses `level` at index `i`" (`i ≥ 1`), the
specification-side notion the scan searches for. -/
def CrossAt (buffer : List ℚ) (level : ℚ) (edge : Edge) (i : ℕ) : Prop :=
  1 ≤ i ∧ i < buffer.length ∧
    crossing edge level (buffer.getD (i - 1) 0) (buffer.getD i 0) = true

instance (buffer : List ℚ) (level : ℚ) (edge : Edge) (i : ℕ) :
    Decidable (CrossAt buffer level edge i) := by
  unfold CrossAt
  infer_instance

end SignalGenerator

namespace WindowExtractor

/-- Peak absolute value over the slice, computed by the auto-scale loop of
`useAudioWindow` (`peak = 0; for each v, if |v| > peak then peak = |v|`). -/
def windowPeak (buf : List ℚ) : ℚ :=
  buf.foldl (fun peak v => if |v| > peak then |v| else peak) 0

/-- The auto-scale target multiplier: `peak === 0 ? 1 : targetPeak / peak`. -/
def autoScaleTarget (targetPeak peak : ℚ) : ℚ :=
  if peak = 0 then 1 else targetPeak / peak

/-- One auto-scale tick:
`scale = scale + (target - scale) * scaleAlpha`. -/
def autoScaleStep (targetPeak peak alpha s : ℚ) : ℚ :=
  s + (autoScaleTarget targetPeak peak - s) * alpha

end WindowExtractor

namespace FeatureExtractor

/-- The RMS-history update of the beat detector in `useAudioFeatures`:
push the current energy, then drop the oldest sample when the history
exceeds 43 entries. -/
def pushHistory (h : List ℚ) (e : ℚ) : List ℚ :=
  let h1 := h ++ [e]
  if 43 < h1.length then h1.tail else h1

/-- The history obtained by feeding `n` constant samples of value `M`
into an initially empty history. -/
def feedConst (M : ℚ) (n : ℕ) : List ℚ :=
  (fun h => pushHistory h M)^[n] []

/-- Mean of the (post-push) history:
`history.reduce((a,b) => a+b, 0) / history.length`. -/
def historyMean (h : List ℚ) : ℚ :=
  h.sum / h.length

/-- Beat-detector state: the sliding RMS history and the timestamp of the
last fired beat (`lastBeatRef`). -/
structure BeatState where
  history : List ℚ
  lastBeat : ℤ

/-- Result of one beat-detection tick: new state, `isBeat`, `confidence`. -/
structure BeatResult where
  state : BeatState
  isBeat : Bool
  confidence : ℚ

/-- One beat-detection tick of `useAudioFeatures`: push `energy` into the
history, compute the mean, and fire iff
`energy > mean * threshold && now - lastBeat > cooldownMs`;
on fire, `confidence = Math.min(1, energy/(mean*threshold) - 1)` and the
last-beat timestamp becomes `now`. -/
def beatUpdate (threshold : ℚ) (cooldownMs : ℤ) (st : BeatState) (energy : ℚ)
    (now : ℤ) : BeatResult :=
  let h := pushHistory st.history energy
  let m := historyMean h
  if m * threshold < energy ∧ cooldownMs < now - st.lastBeat then
    ⟨⟨h, now⟩, true, min 1 (energy / (m * threshold) - 1)⟩
  else
    ⟨⟨h, st.lastBeat⟩, false, 0⟩

end FeatureExtractor

namespace DecisionEngine

/-- Pace-dependent minimum time between mode switches (ms), from
`useAIBrain`:
frenetic 2000, fast 5000, slow 15000, otherwise 8000. -/
def minDuration (pace : String) : ℤ :=
  if pace = "frenetic" then 2000
  else if pace = "fast" then 5000
  else if pace = "slow" then 15000
  else 8000

/-- The beat fields of the audio-feature snapshot consumed by the engine. -/
structure BeatInfo where
  isBeat : Bool
  confidence : ℚ

/-- The qualifying "drop":
`beat.isBeat && beat.confidence > 0.8 && rmsGlobal > 0.5`. -/
def isDrop (beat : BeatInfo) (rms : ℚ) : Bool :=
  beat.isBeat && decide ((4 : ℚ)/5 < beat.confidence) && decide ((1 : ℚ)/2 < rms)

/-- The switch decision of the slow path:
`timeSinceChange > minDuration && (isDrop || timeSinceChange > minDuration * 1.5)`.
All four `minDuration` values are even, so `minDuration * 1.5` is the
integer `minDuration * 3 / 2`. -/
def shouldSwitch (pace : String) (lastModeChange : ℤ) (now : ℤ) (beat : BeatInfo)
    (rms : ℚ) : Bool :=
  decide (minDuration pace < now - lastModeChange) &&
    (isDrop beat rms || decide (minDuration pace * 3 / 2 < now - lastModeChange))

/-- The part of the engine's memory that the mode-switch gate reads and
writes (`memoryRef`): the last-switch timestamp and the index into the
preferred-mode list.  The remaining memory fields (glitch flag, history
lists) do not influence the gate. -/
structure BrainMem where
  lastModeChange : ℤ
  currentModeIndex : ℕ

/-- One slow-path update: on a qualifying switch, record `now` and advance
the mode index cyclically (`(idx + 1) % preferredModes.length`); otherwise
leave the memory unchanged. -/
def brainSlowStep (pace : String) (numModes : ℕ) (mem : BrainMem) (now : ℤ)
    (beat : BeatInfo) (rms : ℚ) : BrainMem :=
  if shouldSwitch pace mem.lastModeChange now beat rms then
    ⟨now, (mem.currentModeIndex + 1) % numModes⟩
  else
    mem

/-- One slow-path input: a timestamp plus the audio features it sees. -/
structure BrainInput where
  now : ℤ
  beat : BeatInfo
  rms : ℚ

/-- The timestamps at which a run of slow-path updates over the input
sequence performs a mode switch. -/
def switchTimes (pace : String) (numModes : ℕ) (mem : BrainMem) :
    List BrainInput → List ℤ
  | [] => []
  | inp :: rest =>
    if shouldSwitch pace mem.lastModeChange inp.now inp.beat inp.rms then
      inp.now :: switchTimes pace numModes ⟨inp.now, (mem.currentModeIndex + 1) % numModes⟩ rest
    else
      switchTimes pace numModes mem rest

/-- Fast-path focus target of `useAIBrain` (0 is sharp, 1 is soft):
base `0.05` for mood "digital", `0.4` otherwise; overridden to `0.02`
when `rmsGlobal > 0.8`. -/
def targetFocus (mood : String) (rms : ℚ) : ℚ :=
  if (4 : ℚ)/5 < rms then 1/50
  else if mood = "digital" then 1/20
  else 2/5

end DecisionEngine

namespace TrailRenderer

/-- Trail capacity of `XYPlot` (`MAX_TRAIL_POINTS`). -/
def maxTrailPoints : ℕ := 8192

/-- Phosphor persistence in seconds (`PERSISTENCE_SECONDS = 0.15`). -/
def persistenceSeconds : ℚ := 3/20

/-- `activeTrailLength = Math.min(MAX_TRAIL_POINTS, Math.floor(speed * PERSISTENCE_SECONDS))`. -/
def activeTrailLength (speed : ℚ) : ℤ :=
  min (maxTrailPoints : ℤ) ⌊speed * persistenceSeconds⌋

/-- The fade parameter of trail entry `i`:
`t = 1 - i / (MAX_TRAIL_POINTS - 1)` (1 at the head, 0 at the tail). -/
def fadeT (i : ℕ) : ℚ :=
  1 - (i : ℚ) / 8191

/-- One precomputed trail color component for a base component `c`:
`c * t^2 + (1 - c) * t^20` (quadratic fade plus a white-hot tip). -/
def fadeColorComponent (c : ℚ) (i : ℕ) : ℚ :=
  c * (fadeT i) ^ 2 + (1 - c) * (fadeT i) ^ 20

end TrailRenderer

/-- Layout mode shared by the multi-instance shape generators. -/
inductive LayoutMode
  | polygon
  | grid
deriving DecidableEq

/-- Number of simultaneous instances ("passes"):
`gridRows * gridCols` in grid layout, else `Math.max(1, cloneCount)`. -/
def passesOf (layout : LayoutMode) (cloneCount gridRows gridCols : ℕ) : ℕ :=
  match layout with
  | .grid => gridRows * gridCols
  | .polygon => max 1 cloneCount

/-- Per-instance point budget `Math.floor(pointsCount / passes)`.  (In
JavaScript `passes = 0` would give `Infinity`; the theorems below only
consider `passes ≥ 1`, where natural division is exact floor division.) -/
def pointsPerPassOf (pointsCount passes : ℕ) : ℕ :=
  pointsCount / passes

namespace EyeGenerator

/-- A JavaScript number restricted to the values arising in the eye
generator's pupil-index computation: a finite rational, `Infinity`, or
`NaN`. -/
inductive JSNum
  | nan
  | inf
  | val (q : ℚ)
deriving DecidableEq

/-- Sclera point budget `Math.floor(pointsPerPass * 0.6)` (with exact
rational arithmetic, `⌊3·ppp/5⌋`). -/
def scleraCount (ppp : ℕ) : ℕ :=
  3 * ppp / 5

/-- Per-pupil point budget `Math.floor((pointsPerPass - scleraCount) / 3)`. -/
def pupilCount (ppp : ℕ) : ℕ :=
  (ppp - scleraCount ppp) / 3

/-- JavaScript `Math.floor(num / den)` for nonnegative integer `num` and
`den`: `0/0` is `NaN`, `k/0` is `Infinity` for `k > 0`, and otherwise the
floor of the exact quotient. -/
def jsFloorDivNat (num den : ℕ) : JSNum :=
  if den = 0 then
    if num = 0 then .nan else .inf
  else
    .val (num / den : ℕ)

/-- JavaScript `Math.min(x, 2)`: `NaN` propagates, `Infinity` caps to 2. -/
def jsMin2 : JSNum → JSNum
  | .nan => .nan
  | .inf => .val 2
  | .val q => .val (min q 2)

/-- The guarded pupil index of `useEyeSignal` for loop index `i` (taken in
the `i ≥ scleraCount` branch):
`safePupilIdx = Math.min(Math.floor((i - scleraCount) / pupilCount), 2)`. -/
def safePupilIdx (ppp i : ℕ) : JSNum :=
  jsMin2 (jsFloorDivNat (i - scleraCount ppp) (pupilCount ppp))

/-- The result of reading the 3-element `pupilPositions` array at a
`JSNum` index: in bounds only for the finite values 0, 1, 2 (a `NaN` or
out-of-range index reads `undefined` and the subsequent `center.x` access
throws). -/
def pupilReadInBounds (idx : JSNum) : Prop :=
  idx = .val 0 ∨ idx = .val 1 ∨ idx = .val 2

instance (idx : JSNum) : Decidable (pupilReadInBounds idx) := by
  unfold pupilReadInBounds
  infer_instance

end EyeGenerator

/-!  Shared 3D machinery of the shape generators: THREE.js quaternions
built from Euler angles (`Quaternion.setFromEuler`, default axis order
XYZ) and quaternion rotation of a vector (`Vector3.applyQuaternion`). -/

/-- A vector as an (x, y, z) triple of reals. -/
structure Vec3 where
  x : ℝ
  y : ℝ
  z : ℝ

/-- A quaternion as (x, y, z, w). -/
structure Quat where
  x : ℝ
  y : ℝ
  z : ℝ
  w : ℝ

/-- `THREE.Quaternion.setFromEuler` for the default axis order XYZ. -/
noncomputable def quatFromEuler (ex ey ez : ℝ) : Quat :=
  let c1 := Real.cos (ex / 2)
  let c2 := Real.cos (ey / 2)
  let c3 := Real.cos (ez / 2)
  let s1 := Real.sin (ex / 2)
  let s2 := Real.sin (ey / 2)
  let s3 := Real.sin (ez / 2)
  ⟨s1 * c2 * c3 + c1 * s2 * s3,
   c1 * s2 * c3 - s1 * c2 * s3,
   c1 * c2 * s3 + s1 * s2 * c3,
   c1 * c2 * c3 - s1 * s2 * s3⟩

/-- `THREE.Vector3.applyQuaternion`: `v + 2w(u × v) + 2u × (u × v)` with
`u` the quaternion's vector part, written out componentwise exactly as in
the library source. -/
def applyQuaternion (q : Quat) (v : Vec3) : Vec3 :=
  let tx := 2 * (q.y * v.z - q.z * v.y)
  let ty := 2 * (q.z * v.x - q.x * v.z)
  let tz := 2 * (q.x * v.y - q.y * v.x)
  ⟨v.x + q.w * tx + q.y * tz - q.z * ty,
   v.y + q.w * ty + q.z * tx - q.x * tz,
   v.z + q.w * tz + q.x * ty - q.y * tx⟩

/-- Squared Euclidean norm of a `Vec3`. -/
def vecNormSq (v : Vec3) : ℝ :=
  v.x ^ 2 + v.y ^ 2 + v.z ^ 2

/-- Squared norm of a quaternion. -/
def quatNormSq (q : Quat) : ℝ :=
  q.x ^ 2 + q.y ^ 2 + q.z ^ 2 + q.w ^ 2

/-- Grid-layout target offset for instance `pass` (spacing 2, centered on
the origin, row 0 on top):
`targetX = col*2 - (gridCols-1)*2/2`, `targetY = -(row*2 - (gridRows-1)*2/2)`. -/
noncomputable def gridTargetOffset (gridRows gridCols pass : ℕ) : ℝ × ℝ :=
  let col : ℕ := pass % gridCols
  let row : ℕ := pass / gridCols
  ((col : ℝ) * 2 - ((gridCols : ℝ) - 1) * 2 / 2,
   -((row : ℝ) * 2 - ((gridRows : ℝ) - 1) * 2 / 2))

/-- Polygon-layout target offset: evenly spaced on a circle of radius 1.3
with the first instance at the top
(`angle = pass/passes * 2π + π/2`). -/
noncomputable def polygonTargetOffset (passes pass : ℕ) : ℝ × ℝ :=
  let angle := (pass : ℝ) / (passes : ℝ) * (2 * Real.pi) + Real.pi / 2
  (Real.cos angle * 1.3, Real.sin angle * 1.3)

/-- Target center offset of instance `pass`: grid layout uses the grid
formula; polygon layout uses the circle for `passes > 1` and the origin
otherwise. -/
noncomputable def targetOffset (layout : LayoutMode) (gridRows gridCols passes pass : ℕ) :
    ℝ × ℝ :=
  match layout with
  | .grid => gridTargetOffset gridRows gridCols pass
  | .polygon => if 1 < passes then polygonTargetOffset passes pass else (0, 0)

/-- The per-tick offset state (`offsetsRef`) padded with `(0,0)` entries
until it holds at least `passes` entries, as done by the
`while (offsets.length < passes) offsets.push({x:0,y:0})` loop. -/
def padOffsets (offsets : List (ℝ × ℝ)) (passes : ℕ) : List (ℝ × ℝ) :=
  offsets ++ List.replicate (passes - offsets.length) (0, 0)

/-- The smoothed offset of instance `pass` after this tick's lerp toward
the target by factor 0.05. -/
noncomputable def smoothedOffset (layout : LayoutMode) (gridRows gridCols passes : ℕ)
    (offsets : List (ℝ × ℝ)) (pass : ℕ) : ℝ × ℝ :=
  let cur := (padOffsets offsets passes).getD pass (0, 0)
  let tgt := targetOffset layout gridRows gridCols passes pass
  (smoothLerp 0.05 cur.1 tgt.1, smoothLerp 0.05 cur.2 tgt.2)

/-- The generators' fill-remaining loop: pad the written prefix up to
`pointsCount` entries by repeatedly copying the last written value.  When
nothing was written the first copy reads `buffer[-1]`, which is
`undefined` and is stored as `NaN` (`none`). -/
def fillRemaining (pointsCount : ℕ) (main : List (Option ℝ)) : List (Option ℝ) :=
  main ++ List.replicate (pointsCount - main.length) (main.getLast?.getD none)

/-- Animation state shared by the planet and chaos generators: the Euler
rotation accumulator, the per-instance offsets, and the smoothed scale. -/
structure GenState where
  euler : ℝ × ℝ × ℝ
  offsets : List (ℝ × ℝ)
  scale : ℝ

/-- Output of one generator tick: the next state and the published
channel-A and channel-B buffers. -/
structure TickResult where
  state : GenState
  bufferA : List (Option ℝ)
  bufferB : List (Option ℝ)

namespace PlanetGenerator

/-- Parameters of `usePlanetSignal`. -/
structure Params where
  pointsCount : ℕ
  rotationSpeed : ℝ
  cloneCount : ℕ
  layoutMode : LayoutMode
  gridRows : ℕ
  gridCols : ℕ

/-- Euler-angle update of one planet tick:
`x += 0.005*speed; y += 0.01*speed; z += 0.002*speed`. -/
noncomputable def nextEuler (speed : ℝ) (e : ℝ × ℝ × ℝ) : ℝ × ℝ × ℝ :=
  (e.1 + 0.005 * speed, e.2.1 + 0.01 * speed, e.2.2 + 0.002 * speed)

/-- Planet target scale: `passes > 1 ? 0.45 : 1.2`, overridden to `0.35`
in grid layout. -/
noncomputable def targetScale (layout : LayoutMode) (passes : ℕ) : ℝ :=
  match layout with
  | .grid => 0.35
  | .polygon => if 1 < passes then 0.45 else 1.2

/-- The raw spherical-spiral point for sample `i` of an instance:
`t = i/(pointsPerPass-1)`, `phi = t·π`, `theta = t·12·2π`, radius 0.6.
(For `pointsPerPass = 1` JavaScript computes `t = 0/0 = NaN`; in this
embedding `t = 0`, and no theorem below relies on that case.) -/
noncomputable def rawSpiralPoint (ppp i : ℕ) : Vec3 :=
  let t : ℝ := (i : ℝ) / ((ppp : ℝ) - 1)
  let phi := t * Real.pi
  let theta := t * 12 * (2 * Real.pi)
  ⟨0.6 * Real.sin phi * Real.cos theta,
   0.6 * Real.cos phi,
   0.6 * Real.sin phi * Real.sin theta⟩

/-- One published planet sample (channel A, channel B): rotate the raw
point, add the instance offset, and project with perspective distance 1.8
and the smoothed scale.  No clamping is applied. -/
noncomputable def sample (q : Quat) (offset : ℝ × ℝ) (scale : ℝ) (ppp i : ℕ) :
    Option ℝ × Option ℝ :=
  let v := applyQuaternion q (rawSpiralPoint ppp i)
  let vx := v.x + offset.1
  let vy := v.y + offset.2
  let px := vx / (v.z + 1.8) * scale
  let py := vy / (v.z + 1.8) * scale
  (some px, some py)

/-- The tick's instance count. -/
def passes (p : Params) : ℕ :=
  passesOf p.layoutMode p.cloneCount p.gridRows p.gridCols

/-- The tick's per-instance point budget. -/
def ppp (p : Params) : ℕ :=
  pointsPerPassOf p.pointsCount (passes p)

/-- The tick's updated Euler state. -/
noncomputable def tickEuler (p : Params) (st : GenState) : ℝ × ℝ × ℝ :=
  nextEuler p.rotationSpeed st.euler

/-- The tick's rotation quaternion, from the updated Euler state. -/
noncomputable def tickQuat (p : Params) (st : GenState) : Quat :=
  quatFromEuler (tickEuler p st).1 (tickEuler p st).2.1 (tickEuler p st).2.2

/-- The tick's smoothed scale. -/
noncomputable def tickScale (p : Params) (st : GenState) : ℝ :=
  smoothLerp 0.05 st.scale (targetScale p.layoutMode (passes p))

/-- The tick's smoothed offset for instance `pass`. -/
noncomputable def tickOffset (p : Params) (st : GenState) (pass : ℕ) : ℝ × ℝ :=
  smoothedOffset p.layoutMode p.gridRows p.gridCols (passes p) st.offsets pass

/-- The samples written by the tick's nested pass/point loops, in write
order. -/
noncomputable def mainPairs (p : Params) (st : GenState) : List (Option ℝ × Option ℝ) :=
  ((List.range (passes p)).map fun pass =>
    (List.range (ppp p)).map fun i =>
      sample (tickQuat p st) (tickOffset p st pass) (tickScale p st) (ppp p) i).flatten

/-- One animation tick of `usePlanetSignal`. -/
noncomputable def tick (p : Params) (st : GenState) : TickResult :=
  ⟨⟨tickEuler p st,
    (List.range (passes p)).map (tickOffset p st) ++
      (padOffsets st.offsets (passes p)).drop (passes p),
    tickScale p st⟩,
   fillRemaining p.pointsCount ((mainPairs p st).map Prod.fst),
   fillRemaining p.pointsCount ((mainPairs p st).map Prod.snd)⟩

end PlanetGenerator

namespace ChaosGenerator

/-- The three supported strange attractors. -/
inductive AttractorType
  | lorenz
  | rossler
  | aizawa
deriving DecidableEq

/-- Parameters of `useChaosSignal`. -/
structure Params where
  pointsCount : ℕ
  rotationSpeed : ℝ
  cloneCount : ℕ
  layoutMode : LayoutMode
  gridRows : ℕ
  gridCols : ℕ
  attractorType : AttractorType

/-- One fixed-step Euler integration step (`dt = 0.01`) of the selected
attractor, with the published constants
(Lorenz `σ=10, ρ=28, β=8/3`; Rössler `a=b=0.2, c=5.7`;
Aizawa `a=0.95, b=0.7, c=0.6, d=3.5, e=0.25, f=0.1`). -/
noncomputable def attractorStep (ty : AttractorType) (p : Vec3) : Vec3 :=
  let d : Vec3 :=
    match ty with
    | .lorenz => ⟨10 * (p.y - p.x), p.x * (28 - p.z) - p.y, p.x * p.y - 8/3 * p.z⟩
    | .rossler => ⟨-p.y - p.z, p.x + 0.2 * p.y, 0.2 + p.z * (p.x - 5.7)⟩
    | .aizawa =>
      ⟨(p.z - 0.7) * p.x - 3.5 * p.y,
       3.5 * p.x + (p.z - 0.7) * p.y,
       0.6 + 0.95 * p.z - p.z ^ 3 / 3 - (p.x ^ 2 + p.y ^ 2) * (1 + 0.25 * p.z)
         + 0.1 * p.z * p.x ^ 3⟩
  ⟨p.x + d.x * 0.01, p.y + d.y * 0.01, p.z + d.z * 0.01⟩

/-- Per-instance initial condition: `(0.1, 0, 0)`, perturbed by
`x += pass*0.1; y += pass*0.1` for clones beyond the first. -/
noncomputable def initPoint (pass : ℕ) : Vec3 :=
  if 0 < pass then ⟨0.1 + (pass : ℝ) * 0.1, (pass : ℝ) * 0.1, 0⟩ else ⟨0.1, 0, 0⟩

/-- Recentering applied before rotation: Lorenz `z -= 25`,
Rössler `z -= 20`, Aizawa unchanged. -/
noncomputable def recenter (ty : AttractorType) (v : Vec3) : Vec3 :=
  match ty with
  | .lorenz => ⟨v.x, v.y, v.z - 25⟩
  | .rossler => ⟨v.x, v.y, v.z - 20⟩
  | .aizawa => v

/-- Chaos target scale: the layout base (`passes > 1 ? 0.45 : 1.2`, grid
`0.35`) times the attractor fit factor (`lorenz, rossler: ×0.03`,
`aizawa: ×2.5`). -/
noncomputable def targetScale (layout : LayoutMode) (passes : ℕ) (ty : AttractorType) : ℝ :=
  let base : ℝ :=
    match layout with
    | .grid => 0.35
    | .polygon => if 1 < passes then 0.45 else 1.2
  match ty with
  | .lorenz => base * 0.03
  | .rossler => base * 0.03
  | .aizawa => base * 2.5

/-- JavaScript evaluation of the chaos generator's
`Math.max(-1, Math.min(1, num/den * scale))` projection-and-clamp
expression, for finite real `num`, `den`, `scale`.  When `den = 0`
(JavaScript `+0`): `0/0` is `NaN`, and `NaN * scale` stays `NaN`, which
passes through `Math.min`/`Math.max` — published as `none`;
`num/0 = ±Infinity` for `num ≠ 0`, and `±Infinity * 0 = NaN` (`none`)
while for `scale ≠ 0` the product is `±Infinity` (sign by the product of
signs), which the clamp caps to `±1`.  When `den ≠ 0` the expression is
ordinary arithmetic and the clamp yields `max (-1) (min 1 ·)`. -/
noncomputable def jsProjClamp (num den scale : ℝ) : Option ℝ :=
  if den = 0 then
    if num = 0 then none
    else if scale = 0 then none
    else if (0 < num ∧ 0 < scale) ∨ (num < 0 ∧ scale < 0) then some 1
    else some (-1)
  else some (max (-1) (min 1 (num / den * scale)))

/-- One published chaos sample: the trajectory point after `i+1`
integration steps, recentered, rotated, offset, projected with distance
5.0 via `jsProjClamp`, and clamped to `[-1, 1]` on both channels
(`NaN` — possible only when the rotated recentered point has `z = -5` —
is published as `none`). -/
noncomputable def sample (ty : AttractorType) (q : Quat) (offset : ℝ × ℝ) (scale : ℝ)
    (pass i : ℕ) : Option ℝ × Option ℝ :=
  let p := (attractorStep ty)^[i + 1] (initPoint pass)
  let v := applyQuaternion q (recenter ty p)
  (jsProjClamp (v.x + offset.1) (v.z + 5.0) scale,
   jsProjClamp (v.y + offset.2) (v.z + 5.0) scale)

/-- The tick's instance count. -/
def passes (p : Params) : ℕ :=
  passesOf p.layoutMode p.cloneCount p.gridRows p.gridCols

/-- The tick's per-instance point budget. -/
def ppp (p : Params) : ℕ :=
  pointsPerPassOf p.pointsCount (passes p)

/-- The tick's updated Euler state
(`x += 0.005*speed; y += 0.01*speed; z += 0.002*speed`). -/
noncomputable def tickEuler (p : Params) (st : GenState) : ℝ × ℝ × ℝ :=
  (st.euler.1 + 0.005 * p.rotationSpeed, st.euler.2.1 + 0.01 * p.rotationSpeed,
   st.euler.2.2 + 0.002 * p.rotationSpeed)

/-- The tick's rotation quaternion, from the updated Euler state. -/
noncomputable def tickQuat (p : Params) (st : GenState) : Quat :=
  quatFromEuler (tickEuler p st).1 (tickEuler p st).2.1 (tickEuler p st).2.2

/-- The tick's smoothed scale. -/
noncomputable def tickScale (p : Params) (st : GenState) : ℝ :=
  smoothLerp 0.05 st.scale (targetScale p.layoutMode (passes p) p.attractorType)

/-- The tick's smoothed offset for instance `pass`. -/
noncomputable def tickOffset (p : Params) (st : GenState) (pass : ℕ) : ℝ × ℝ :=
  smoothedOffset p.layoutMode p.gridRows p.gridCols (passes p) st.offsets pass

/-- The samples written by the tick's nested pass/point loops, in write
order. -/
noncomputable def mainPairs (p : Params) (st : GenState) : List (Option ℝ × Option ℝ) :=
  ((List.range (passes p)).map fun pass =>
    (List.range (ppp p)).map fun i =>
      sample p.attractorType (tickQuat p st) (tickOffset p st pass) (tickScale p st)
        pass i).flatten

/-- One animation tick of `useChaosSignal`. -/
noncomputable def tick (p : Params) (st : GenState) : TickResult :=
  ⟨⟨tickEuler p st,
    (List.range (passes p)).map (tickOffset p st) ++
      (padOffsets st.offsets (passes p)).drop (passes p),
    tickScale p st⟩,
   fillRemaining p.pointsCount ((mainPairs p st).map Prod.fst),
   fillRemaining p.pointsCount ((mainPairs p st).map Prod.snd)⟩

end ChaosGenerator

namespace CubeGenerator

/-- The 8 fixed cube vertices of `useCubeSignal` (coordinates ±0.5). -/
noncomputable def vertices : List Vec3 :=
  [⟨-0.5, -0.5, -0.5⟩, ⟨0.5, -0.5, -0.5⟩, ⟨0.5, 0.5, -0.5⟩, ⟨-0.5, 0.5, -0.5⟩,
   ⟨-0.5, -0.5, 0.5⟩, ⟨0.5, -0.5, 0.5⟩, ⟨0.5, 0.5, 0.5⟩, ⟨-0.5, 0.5, 0.5⟩]

/-- The fixed 17-index vertex path traversed as one stroke. -/
def path : List ℕ :=
  [0, 1, 2, 3, 0, 4, 5, 6, 7, 4, 0, 3, 7, 6, 2, 1, 5]

/-- Perspective projection used by the cube generator:
`(x/(z+1.8)·1.2, y/(z+1.8)·1.2)`. -/
noncomputable def project (v : Vec3) : ℝ × ℝ :=
  (v.x / (v.z + 1.8) * 1.2, v.y / (v.z + 1.8) * 1.2)

/-- The projected endpoint of path position `i` under rotation `q`. -/
noncomputable def endpoint (q : Quat) (i : ℕ) : ℝ × ℝ :=
  project (applyQuaternion q (vertices.getD (path.getD i 0) ⟨0, 0, 0⟩))

/-- The `pointsPerSegment` interpolated samples of segment `i`
(`t = j/pointsPerSegment`, linear interpolation between the projected
segment endpoints), as (channel A, channel B) pairs. -/
noncomputable def segmentPoints (q : Quat) (pps i : ℕ) : List (Option ℝ × Option ℝ) :=
  let p1 := endpoint q i
  let p2 := endpoint q (i + 1)
  (List.range pps).map fun (j : ℕ) =>
    let t : ℝ := (j : ℝ) / (pps : ℝ)
    (some (p1.1 + (p2.1 - p1.1) * t), some (p1.2 + (p2.2 - p1.2) * t))

/-- The tick's updated Euler state
(`x += 0.005*speed; y += 0.01*speed; z += 0.003*speed`). -/
noncomputable def tickEuler (speed : ℝ) (euler : ℝ × ℝ × ℝ) : ℝ × ℝ × ℝ :=
  (euler.1 + 0.005 * speed, euler.2.1 + 0.01 * speed, euler.2.2 + 0.003 * speed)

/-- The tick's rotation quaternion, from the updated Euler state. -/
noncomputable def tickQuat (speed : ℝ) (euler : ℝ × ℝ × ℝ) : Quat :=
  quatFromEuler (tickEuler speed euler).1 (tickEuler speed euler).2.1
    (tickEuler speed euler).2.2

/-- `totalSegments = path.length - 1` (= 16). -/
def totalSegments : ℕ :=
  path.length - 1

/-- The samples written by the tick's segment/point loops, in write
order (`pointsPerSegment = Math.floor(pointsCount/totalSegments)`). -/
noncomputable def mainPairs (pointsCount : ℕ) (q : Quat) : List (Option ℝ × Option ℝ) :=
  ((List.range totalSegments).map fun i =>
    segmentPoints q (pointsCount / totalSegments) i).flatten

/-- One animation tick of `useCubeSignal`: 16 segments of
`Math.floor(pointsCount/16)` interpolated points each, then the
fill-remaining loop.  Returns the new Euler state and both buffers. -/
noncomputable def tick (pointsCount : ℕ) (speed : ℝ) (euler : ℝ × ℝ × ℝ) :
    (ℝ × ℝ × ℝ) × List (Option ℝ) × List (Option ℝ) :=
  (tickEuler speed euler,
   fillRemaining pointsCount ((mainPairs pointsCount (tickQuat speed euler)).map Prod.fst),
   fillRemaining pointsCount ((mainPairs pointsCount (tickQuat speed euler)).map Prod.snd))

/-- Geometric cube-edge relation: two vertices span an edge of the cube
iff they differ in exactly one coordinate. -/
def IsCubeEdge (p r : Vec3) : Prop :=
  (p.x ≠ r.x ∧ p.y = r.y ∧ p.z = r.z) ∨
  (p.x = r.x ∧ p.y ≠ r.y ∧ p.z = r.z) ∨
  (p.x = r.x ∧ p.y = r.y ∧ p.z ≠ r.z)

/-- The 16 stroke segments as order-normalized index pairs. -/
def segmentPairs : List (ℕ × ℕ) :=
  (List.range 16).map fun i =>
    (min (path.getD i 0) (path.getD (i + 1) 0), max (path.getD i 0) (path.getD (i + 1) 0))

end CubeGenerator

/-! ## Theorems -/

/-- Claim C2.  As stated the claim is false: under the code's convention
(focus 0 = sharp, 1 = soft/blurry, per the `BrainState` field comments),
the "digital" baseline 0.05 is strictly on the *sharper* side of the
non-"digital" baseline 0.4, not the blurrier side — here witnessed at
RMS 0 against mood "calm". -/
theorem targetFocus_digital_not_softer :
    DecisionEngine.targetFocus "digital" 0 < DecisionEngine.targetFocus "calm" 0 := by
  have h1 : ¬ ((4 : ℚ)/5 < 0) := by norm_num
  have h2 : ("calm" : String) ≠ "digital" := by decide
  unfold DecisionEngine.targetFocus
  rw [if_neg h1, if_neg h1, if_pos rfl, if_neg h2]
  norm_num

/-- Claim C2, amended.  For every RMS not above the 0.8 high-RMS override
threshold, the "digital" mood's target focus is strictly sharper
(strictly smaller under the 0-sharp/1-soft convention) than the target
focus of every other mood. -/
theorem targetFocus_digital_sharper (mood : String) (rms : ℚ)
    (hrms : rms ≤ 4/5) (hmood : mood ≠ "digital") :
    DecisionEngine.targetFocus "digital" rms < DecisionEngine.targetFocus mood rms := by
  have h1 : ¬ ((4 : ℚ)/5 < rms) := not_lt.mpr hrms
  unfold DecisionEngine.targetFocus
  rw [if_neg h1, if_neg h1, if_pos rfl, if_neg hmood]
  norm_num

/-- Witness for the amended claim C2, at RMS 1/2 and mood "organic". -/
theorem targetFocus_digital_sharper_witness :
    DecisionEngine.targetFocus "digital" (1/2) < DecisionEngine.targetFocus "organic" (1/2) :=
  targetFocus_digital_sharper "organic" (1/2) (by norm_num) (by decide)

/-- Claim C9.  The active trail length is
`min(capacity, floor(speed·persistenceSeconds))` with capacity 8192 and
persistence 0.15 s, hence never exceeds the buffer capacity; and each
precomputed trail color component is monotonically non-increasing in the
distance-from-head index, for any base color component in `[0,1]`. -/
theorem trail_length_and_fade_monotone :
    (∀ speed : ℚ, TrailRenderer.activeTrailLength speed = min 8192 ⌊speed * (3/20)⌋ ∧
      TrailRenderer.activeTrailLength speed ≤ 8192) ∧
    (∀ (c : ℚ) (i j : ℕ), 0 ≤ c → c ≤ 1 → i ≤ j → j < 8192 →
      TrailRenderer.fadeColorComponent c j ≤ TrailRenderer.fadeColorComponent c i) := by
  constructor
  · intro speed
    exact ⟨rfl, min_le_left _ _⟩
  · intro c i j hc0 hc1 hij hj
    have htj0 : (0 : ℚ) ≤ TrailRenderer.fadeT j := by
      unfold TrailRenderer.fadeT
      have : (j : ℚ) ≤ 8191 := by exact_mod_cast Nat.lt_succ_iff.mp hj
      rw [sub_nonneg, div_le_one (by norm_num)]
      exact this
    have htij : TrailRenderer.fadeT j ≤ TrailRenderer.fadeT i := by
      unfold TrailRenderer.fadeT
      have hc : (i : ℚ) ≤ (j : ℚ) := by exact_mod_cast hij
      have hdiv : (i : ℚ) / 8191 ≤ (j : ℚ) / 8191 := by gcongr
      linarith
    unfold TrailRenderer.fadeColorComponent
    have h2 := pow_le_pow_left₀ htj0 htij 2
    have h20 := pow_le_pow_left₀ htj0 htij 20
    have hc1n : (0 : ℚ) ≤ 1 - c := by linarith
    calc c * TrailRenderer.fadeT j ^ 2 + (1 - c) * TrailRenderer.fadeT j ^ 20
        ≤ c * TrailRenderer.fadeT i ^ 2 + (1 - c) * TrailRenderer.fadeT i ^ 20 := by
          exact add_le_add (mul_le_mul_of_nonneg_left h2 hc0)
            (mul_le_mul_of_nonneg_left h20 hc1n)
      _ = _ := rfl

/-- Witness for claim C9: the green component (base 1) of trail entry 1 is
no brighter than that of the head entry 0. -/
theorem trail_fade_monotone_witness :
    TrailRenderer.fadeColorComponent 1 1 ≤ TrailRenderer.fadeColorComponent 1 0 :=
  trail_length_and_fade_monotone.2 1 0 1 (by norm_num) (by norm_num) (by norm_num)
    (by norm_num)

/-- Claim C10.  As stated the claim is false: when `pupilCount = 0` the
first pupil iteration (`i = scleraCount`) computes `0/0 = NaN`, not
`Infinity`; `Math.min(NaN, 2)` is `NaN`, not 2, so the read of
`pupilPositions` is out of bounds (`undefined`), and the subsequent
`center.x` access throws instead of writing a value.  Here at
`pointsCount = 1, cloneCount = 1`, polygon layout: `pointsPerPass = 1`,
`scleraCount = 0`, `pupilCount = 0`, and the guarded index at `i = 0` is
`NaN`. -/
theorem eye_pupil_index_nan_counterexample :
    pointsPerPassOf 1 (passesOf .polygon 1 2 3) = 1 ∧
    EyeGenerator.scleraCount 1 = 0 ∧
    EyeGenerator.pupilCount 1 = 0 ∧
    EyeGenerator.safePupilIdx 1 0 = .nan ∧
    ¬ EyeGenerator.pupilReadInBounds (EyeGenerator.safePupilIdx 1 0) := by
  refine ⟨rfl, rfl, rfl, rfl, ?_⟩
  intro h
  rcases h with h | h | h <;> simp [EyeGenerator.safePupilIdx, EyeGenerator.jsFloorDivNat,
    EyeGenerator.jsMin2, EyeGenerator.scleraCount, EyeGenerator.pupilCount] at h

/-- Claim C10, amended.  Whenever the per-pupil budget is at least 1,
every read of the 3-element `pupilPositions` array in the pupil branch
(`i ≥ scleraCount`) uses the in-bounds index
`min(floor((i - scleraCount)/pupilCount), 2) ∈ {0, 1, 2}`; the degenerate
`pupilCount = 0` case instead yields `0/0 = NaN` at the first pupil point
and an out-of-bounds read. -/
theorem eye_pupil_index_in_bounds (ppp i : ℕ)
    (hpupil : 1 ≤ EyeGenerator.pupilCount ppp)
    (hi : EyeGenerator.scleraCount ppp ≤ i) :
    EyeGenerator.pupilReadInBounds (EyeGenerator.safePupilIdx ppp i) := by
  have hden : EyeGenerator.pupilCount ppp ≠ 0 := by omega
  unfold EyeGenerator.safePupilIdx EyeGenerator.jsFloorDivNat
  rw [if_neg hden]
  simp only [EyeGenerator.jsMin2]
  set k : ℕ := (i - EyeGenerator.scleraCount ppp) / EyeGenerator.pupilCount ppp with hk
  have hcast : min ((k : ℚ)) 2 = ((min k 2 : ℕ) : ℚ) := by
    push_cast
    rfl
  rw [hcast]
  have hle : min k 2 ≤ 2 := min_le_right _ _
  interval_cases h : min k 2
  · exact Or.inl (by norm_num)
  · exact Or.inr (Or.inl (by norm_num))
  · exact Or.inr (Or.inr (by norm_num))

/-- Witness for the amended claim C10: at the default 2000 points per
pass, `scleraCount = 1200`, `pupilCount = 266`, and the read at
`i = 1500` is in bounds. -/
theorem eye_pupil_index_in_bounds_witness :
    EyeGenerator.pupilReadInBounds (EyeGenerator.safePupilIdx 2000 1500) :=
  eye_pupil_index_in_bounds 2000 1500 (by decide) (by decide)

/-- A firing `shouldSwitch` implies the minimum duration has strictly
elapsed since the last recorded switch. -/
lemma shouldSwitch_gap {pace : String} {last now : ℤ} {beat : DecisionEngine.BeatInfo}
    {rms : ℚ} (h : DecisionEngine.shouldSwitch pace last now beat rms = true) :
    DecisionEngine.minDuration pace < now - last := by
  unfold DecisionEngine.shouldSwitch at h
  have h1 := (Bool.and_eq_true _ _).mp h |>.1
  exact of_decide_eq_true h1

/-- Claim C8.  The mode-switch gate: (a) whenever one slow-path update
changes the engine memory, the update records the current timestamp and
strictly more than `minDuration(pace)` has elapsed since the previous
recorded switch; (b) over any input sequence (in particular a 300 ms beat
stream with confidence > 0.8 and RMS > 0.5), the successive switch
timestamps, starting from the initial `lastModeChange`, are pairwise
separated by more than `minDuration(pace)` (frenetic 2000 ms, fast
5000 ms, slow 15000 ms, default 8000 ms). -/
theorem mode_switch_min_duration (pace : String) (numModes : ℕ) :
    (∀ (mem : DecisionEngine.BrainMem) (now : ℤ) (beat : DecisionEngine.BeatInfo) (rms : ℚ),
      DecisionEngine.brainSlowStep pace numModes mem now beat rms ≠ mem →
        (DecisionEngine.brainSlowStep pace numModes mem now beat rms).lastModeChange = now ∧
        DecisionEngine.minDuration pace < now - mem.lastModeChange) ∧
    (∀ (mem : DecisionEngine.BrainMem) (inputs : List DecisionEngine.BrainInput),
      List.Chain (fun a b => DecisionEngine.minDuration pace < b - a)
        mem.lastModeChange (DecisionEngine.switchTimes pace numModes mem inputs)) := by
  constructor
  · intro mem now beat rms hne
    unfold DecisionEngine.brainSlowStep at hne ⊢
    by_cases hs : DecisionEngine.shouldSwitch pace mem.lastModeChange now beat rms = true
    · rw [if_pos hs]
      exact ⟨rfl, shouldSwitch_gap hs⟩
    · rw [Bool.not_eq_true] at hs
      rw [if_neg (by simp [hs])] at hne
      exact absurd rfl hne
  · intro mem inputs
    induction inputs generalizing mem with
    | nil => exact List.Chain.nil
    | cons inp rest ih =>
      unfold DecisionEngine.switchTimes
      by_cases hs : DecisionEngine.shouldSwitch pace mem.lastModeChange inp.now inp.beat
          inp.rms = true
      · rw [if_pos hs]
        exact List.Chain.cons (shouldSwitch_gap hs)
          (ih ⟨inp.now, (mem.currentModeIndex + 1) % numModes⟩)
      · rw [Bool.not_eq_true] at hs
        rw [if_neg (by simp [hs])]
        exact ih mem

/-- Every entry of a filled buffer already occurs among the written
samples, provided at least one sample was written. -/
lemma fillRemaining_mem {pc : ℕ} {main : List (Option ℝ)} (hne : main ≠ []) :
    ∀ x ∈ fillRemaining pc main, x ∈ main := by
  intro x hx
  unfold fillRemaining at hx
  rcases List.mem_append.mp hx with h | h
  · exact h
  · rw [List.eq_of_mem_replicate h]
    rw [List.getLast?_eq_getLast main hne]
    exact List.getLast_mem hne

/-- Every entry of a filled buffer is a written sample or the `NaN`
produced by the out-of-bounds `buffer[-1]` read of an empty main part. -/
lemma fillRemaining_mem_or_none (pc : ℕ) (main : List (Option ℝ)) :
    ∀ x ∈ fillRemaining pc main, x ∈ main ∨ x = none := by
  intro x hx
  match main with
  | [] =>
    right
    unfold fillRemaining at hx
    rcases List.mem_append.mp hx with h | h
    · simp at h
    · simpa using List.eq_of_mem_replicate h
  | a :: as =>
    exact Or.inl (fillRemaining_mem (by simp) x hx)

/-- The number of samples written by the chaos tick's loops. -/
lemma chaos_mainPairs_length (p : ChaosGenerator.Params) (st : GenState) :
    (ChaosGenerator.mainPairs p st).length
      = ChaosGenerator.passes p * ChaosGenerator.ppp p := by
  unfold ChaosGenerator.mainPairs
  rw [List.length_flatten, List.map_map]
  have : (List.length ∘ fun pass => (List.range (ChaosGenerator.ppp p)).map
      fun i => ChaosGenerator.sample p.attractorType (ChaosGenerator.tickQuat p st)
        (ChaosGenerator.tickOffset p st pass) (ChaosGenerator.tickScale p st) pass i)
      = fun _ => ChaosGenerator.ppp p := by
    funext pass
    simp
  rw [this, List.map_const', List.sum_replicate, List.length_range, smul_eq_mul]

/-- Every written chaos sample is one of the per-pass loop samples. -/
lemma chaos_mainPairs_mem (p : ChaosGenerator.Params) (st : GenState) :
    ∀ pr ∈ ChaosGenerator.mainPairs p st, ∃ pass i,
      pr = ChaosGenerator.sample p.attractorType (ChaosGenerator.tickQuat p st)
        (ChaosGenerator.tickOffset p st pass) (ChaosGenerator.tickScale p st) pass i := by
  intro pr hpr
  unfold ChaosGenerator.mainPairs at hpr
  rw [List.mem_flatten] at hpr
  obtain ⟨l, hl, hpl⟩ := hpr
  rw [List.mem_map] at hl
  obtain ⟨pass, _, rfl⟩ := hl
  rw [List.mem_map] at hpl
  obtain ⟨i, _, rfl⟩ := hpl
  exact ⟨pass, i, rfl⟩

/-- Whenever the projection-and-clamp expression publishes a finite
value, that value lies in `[-1, 1]` (±Infinity is capped to ±1; `NaN`
publishes `none` instead). -/
lemma jsProjClamp_bounds (num den scale : ℝ) :
    ∀ r, ChaosGenerator.jsProjClamp num den scale = some r → -1 ≤ r ∧ r ≤ 1 := by
  intro r h
  unfold ChaosGenerator.jsProjClamp at h
  by_cases h1 : den = 0
  · rw [if_pos h1] at h
    by_cases h2 : num = 0
    · rw [if_pos h2] at h
      exact absurd h (by simp)
    · rw [if_neg h2] at h
      by_cases h3 : scale = 0
      · rw [if_pos h3] at h
        exact absurd h (by simp)
      · rw [if_neg h3] at h
        by_cases h4 : (0 < num ∧ 0 < scale) ∨ (num < 0 ∧ scale < 0)
        · rw [if_pos h4, Option.some.injEq] at h
          rw [← h]
          norm_num
        · rw [if_neg h4, Option.some.injEq] at h
          rw [← h]
          norm_num
  · rw [if_neg h1, Option.some.injEq] at h
    rw [← h]
    exact ⟨le_max_left _ _, max_le (by norm_num) (min_le_left _ _)⟩

/-- Whenever either component of a chaos sample is a finite value, it
lies in `[-1, 1]`. -/
lemma chaos_sample_bounds (ty : ChaosGenerator.AttractorType) (q : Quat) (off : ℝ × ℝ)
    (s : ℝ) (pass i : ℕ) :
    (∀ r, (ChaosGenerator.sample ty q off s pass i).1 = some r → -1 ≤ r ∧ r ≤ 1) ∧
    (∀ r, (ChaosGenerator.sample ty q off s pass i).2 = some r → -1 ≤ r ∧ r ≤ 1) :=
  ⟨fun r h => jsProjClamp_bounds _ _ _ r h, fun r h => jsProjClamp_bounds _ _ _ r h⟩

/-- Claim C1, amended.  The chaos generator's clamp bounds everything
finite it publishes: for every parameter setting and every
rotation/offset/scale state, every finite value published on channel A
or channel B lies in `[-1, 1]` (the clamp also caps an infinite quotient
to ±1), regardless of the raw trajectory magnitudes.  A published value
can be `NaN` (`none`) only in degenerate cases: zero points per instance
(the fill loop reads `buffer[-1]`), or a projected point whose
denominator `rotated z + 5` vanishes while its numerator or the scale is
zero (JavaScript `0/0` and `Infinity·0`).  The planet generator, by
contrast, does not clamp at all — see its counterexample. -/
theorem chaos_outputs_clamped (p : ChaosGenerator.Params) (st : GenState) :
    (∀ x ∈ (ChaosGenerator.tick p st).bufferA, ∀ r, x = some r → -1 ≤ r ∧ r ≤ 1) ∧
    (∀ x ∈ (ChaosGenerator.tick p st).bufferB, ∀ r, x = some r → -1 ≤ r ∧ r ≤ 1) := by
  constructor
  · intro x hx r hr
    rcases fillRemaining_mem_or_none _ _ x hx with h | h
    · rw [List.mem_map] at h
      obtain ⟨pr, hpr, rfl⟩ := h
      obtain ⟨pass, i, rfl⟩ := chaos_mainPairs_mem p st pr hpr
      exact (chaos_sample_bounds _ _ _ _ _ _).1 r hr
    · rw [h] at hr
      exact absurd hr (by simp)
  · intro x hx r hr
    rcases fillRemaining_mem_or_none _ _ x hx with h | h
    · rw [List.mem_map] at h
      obtain ⟨pr, hpr, rfl⟩ := h
      obtain ⟨pass, i, rfl⟩ := chaos_mainPairs_mem p st pr hpr
      exact (chaos_sample_bounds _ _ _ _ _ _).2 r hr
    · rw [h] at hr
      exact absurd hr (by simp)

/-- Witness for the amended claim C1: a single-point Lorenz tick at
rotation speed 0 from the initial state publishes the concrete finite
channel-A value `clamp(0.09/(-20)·1.1418)`, and the theorem bounds it. -/
theorem chaos_outputs_clamped_witness :
    ∃ x ∈ (ChaosGenerator.tick ⟨1, 0, 1, .polygon, 2, 3, .lorenz⟩
        ⟨(0, 0, 0), [], 1.2⟩).bufferA,
      ∃ r, x = some r ∧ -1 ≤ r ∧ r ≤ 1 := by
  have hQ : ChaosGenerator.tickQuat ⟨1, 0, 1, .polygon, 2, 3, .lorenz⟩
      ⟨(0, 0, 0), [], 1.2⟩ = ⟨0, 0, 0, 1⟩ := by
    unfold ChaosGenerator.tickQuat ChaosGenerator.tickEuler quatFromEuler
    norm_num
  have hOff : ChaosGenerator.tickOffset ⟨1, 0, 1, .polygon, 2, 3, .lorenz⟩
      ⟨(0, 0, 0), [], 1.2⟩ 0 = (0, 0) := by
    unfold ChaosGenerator.tickOffset smoothedOffset padOffsets targetOffset smoothLerp
      ChaosGenerator.passes passesOf
    norm_num [List.getD]
  have hScale : ChaosGenerator.tickScale ⟨1, 0, 1, .polygon, 2, 3, .lorenz⟩
      ⟨(0, 0, 0), [], 1.2⟩ = 1.1418 := by
    unfold ChaosGenerator.tickScale ChaosGenerator.targetScale smoothLerp
      ChaosGenerator.passes passesOf
    norm_num
  have hppp : ChaosGenerator.ppp ⟨1, 0, 1, .polygon, 2, 3, .lorenz⟩ = 1 := rfl
  have hp1 : (ChaosGenerator.attractorStep .lorenz)^[0 + 1] (ChaosGenerator.initPoint 0)
      = ⟨0.09, 0.028, 0⟩ := by
    rw [Function.iterate_one]
    unfold ChaosGenerator.attractorStep ChaosGenerator.initPoint
    norm_num
  have hv : applyQuaternion ⟨0, 0, 0, 1⟩ (ChaosGenerator.recenter .lorenz
      ((ChaosGenerator.attractorStep .lorenz)^[0 + 1] (ChaosGenerator.initPoint 0)))
      = ⟨0.09, 0.028, -25⟩ := by
    rw [hp1]
    unfold ChaosGenerator.recenter applyQuaternion
    norm_num
  have hsample : (ChaosGenerator.sample .lorenz ⟨0, 0, 0, 1⟩ (0, 0) 1.1418 0 0).1
      = some (max (-1) (min 1 ((0.09 : ℝ) / (-20) * 1.1418))) := by
    show ChaosGenerator.jsProjClamp
        ((applyQuaternion ⟨0, 0, 0, 1⟩ (ChaosGenerator.recenter .lorenz
          ((ChaosGenerator.attractorStep .lorenz)^[0 + 1]
            (ChaosGenerator.initPoint 0)))).x + (0 : ℝ))
        ((applyQuaternion ⟨0, 0, 0, 1⟩ (ChaosGenerator.recenter .lorenz
          ((ChaosGenerator.attractorStep .lorenz)^[0 + 1]
            (ChaosGenerator.initPoint 0)))).z + 5.0)
        1.1418 = _
    rw [hv]
    unfold ChaosGenerator.jsProjClamp
    rw [if_neg (by norm_num)]
    norm_num
  have hpr : ChaosGenerator.sample .lorenz
        (ChaosGenerator.tickQuat ⟨1, 0, 1, .polygon, 2, 3, .lorenz⟩ ⟨(0, 0, 0), [], 1.2⟩)
        (ChaosGenerator.tickOffset ⟨1, 0, 1, .polygon, 2, 3, .lorenz⟩
          ⟨(0, 0, 0), [], 1.2⟩ 0)
        (ChaosGenerator.tickScale ⟨1, 0, 1, .polygon, 2, 3, .lorenz⟩
          ⟨(0, 0, 0), [], 1.2⟩) 0 0
      ∈ ChaosGenerator.mainPairs ⟨1, 0, 1, .polygon, 2, 3, .lorenz⟩
        ⟨(0, 0, 0), [], 1.2⟩ := by
    unfold ChaosGenerator.mainPairs
    rw [List.mem_flatten]
    refine ⟨_, List.mem_map.mpr ⟨0, ?_, rfl⟩, ?_⟩
    · show 0 ∈ List.range (ChaosGenerator.passes ⟨1, 0, 1, .polygon, 2, 3, .lorenz⟩)
      rw [List.mem_range]
      norm_num [ChaosGenerator.passes, passesOf]
    · exact List.mem_map.mpr ⟨0, by rw [List.mem_range, hppp]; norm_num, rfl⟩
  rw [hQ, hOff, hScale] at hpr
  have hmemA : (ChaosGenerator.sample .lorenz ⟨0, 0, 0, 1⟩ (0, 0) 1.1418 0 0).1
      ∈ (ChaosGenerator.tick ⟨1, 0, 1, .polygon, 2, 3, .lorenz⟩
        ⟨(0, 0, 0), [], 1.2⟩).bufferA := by
    show _ ∈ fillRemaining 1 ((ChaosGenerator.mainPairs ⟨1, 0, 1, .polygon, 2, 3, .lorenz⟩
      ⟨(0, 0, 0), [], 1.2⟩).map Prod.fst)
    exact List.mem_append_left _ (List.mem_map.mpr ⟨_, hpr, rfl⟩)
  exact ⟨_, hmemA, _, hsample,
    (chaos_outputs_clamped ⟨1, 0, 1, .polygon, 2, 3, .lorenz⟩
      ⟨(0, 0, 0), [], 1.2⟩).1 _ hmemA _ hsample⟩

set_option maxRecDepth 8000 in
/-- Claim C1 as stated is false.  (a) The planet generator does not clamp:
in a 1×100 grid layout with 200 points and rotation speed 0, the first
tick from the initial state publishes the channel-A value
(4.95/1.8)·1.1575 = 3.183125 > 1 for the right-most grid instance.
(b) The chaos generator's clamp does not protect the degenerate setting
pointsCount = 1, cloneCount = 2 (zero points per instance): the fill loop
reads `buffer[-1]` (undefined) and publishes a buffer containing NaN. -/
theorem planet_chaos_clamp_counterexample :
    (∃ x ∈ (PlanetGenerator.tick ⟨200, 0, 1, .grid, 1, 100⟩
        ⟨(0, 0, 0), [], 1.2⟩).bufferA, ∃ r, x = some r ∧ 1 < r) ∧
    (ChaosGenerator.tick ⟨1, 0, 2, .polygon, 2, 3, .lorenz⟩
        ⟨(0, 0, 0), [], 1.2⟩).bufferA = [none] := by
  constructor
  · have hQ : PlanetGenerator.tickQuat ⟨200, 0, 1, .grid, 1, 100⟩ ⟨(0, 0, 0), [], 1.2⟩
        = ⟨0, 0, 0, 1⟩ := by
      unfold PlanetGenerator.tickQuat PlanetGenerator.tickEuler PlanetGenerator.nextEuler
        quatFromEuler
      norm_num
    have hOff : PlanetGenerator.tickOffset ⟨200, 0, 1, .grid, 1, 100⟩
        ⟨(0, 0, 0), [], 1.2⟩ 99 = (4.95, 0) := by
      unfold PlanetGenerator.tickOffset smoothedOffset padOffsets targetOffset
        gridTargetOffset smoothLerp PlanetGenerator.passes passesOf
      norm_num [List.getD]
    have hScale : PlanetGenerator.tickScale ⟨200, 0, 1, .grid, 1, 100⟩
        ⟨(0, 0, 0), [], 1.2⟩ = 1.1575 := by
      unfold PlanetGenerator.tickScale PlanetGenerator.targetScale smoothLerp
        PlanetGenerator.passes passesOf
      norm_num
    have hppp : PlanetGenerator.ppp ⟨200, 0, 1, .grid, 1, 100⟩ = 2 := rfl
    have hraw : PlanetGenerator.rawSpiralPoint 2 0 = ⟨0, 0.6, 0⟩ := by
      unfold PlanetGenerator.rawSpiralPoint
      norm_num
    have hsample : ∃ r, (PlanetGenerator.sample ⟨0, 0, 0, 1⟩ (4.95, 0) 1.1575 2 0).1
        = some r ∧ 1 < r := by
      refine ⟨(4.95 : ℝ) / 1.8 * 1.1575, ?_, by norm_num⟩
      unfold PlanetGenerator.sample
      rw [hraw]
      unfold applyQuaternion
      norm_num
    have hpr : PlanetGenerator.sample (PlanetGenerator.tickQuat ⟨200, 0, 1, .grid, 1, 100⟩
          ⟨(0, 0, 0), [], 1.2⟩)
        (PlanetGenerator.tickOffset ⟨200, 0, 1, .grid, 1, 100⟩ ⟨(0, 0, 0), [], 1.2⟩ 99)
        (PlanetGenerator.tickScale ⟨200, 0, 1, .grid, 1, 100⟩ ⟨(0, 0, 0), [], 1.2⟩)
        (PlanetGenerator.ppp ⟨200, 0, 1, .grid, 1, 100⟩) 0
        ∈ PlanetGenerator.mainPairs ⟨200, 0, 1, .grid, 1, 100⟩ ⟨(0, 0, 0), [], 1.2⟩ := by
      unfold PlanetGenerator.mainPairs
      rw [List.mem_flatten]
      refine ⟨_, List.mem_map.mpr ⟨99, ?_, rfl⟩, ?_⟩
      · show 99 ∈ List.range (PlanetGenerator.passes ⟨200, 0, 1, .grid, 1, 100⟩)
        rw [List.mem_range]
        norm_num [PlanetGenerator.passes, passesOf]
      · exact List.mem_map.mpr ⟨0, by rw [List.mem_range, hppp]; norm_num, rfl⟩
    rw [hQ, hOff, hScale, hppp] at hpr
    have hmemA : (PlanetGenerator.sample ⟨0, 0, 0, 1⟩ (4.95, 0) 1.1575 2 0).1
        ∈ (PlanetGenerator.tick ⟨200, 0, 1, .grid, 1, 100⟩
          ⟨(0, 0, 0), [], 1.2⟩).bufferA := by
      show _ ∈ fillRemaining 200 ((PlanetGenerator.mainPairs ⟨200, 0, 1, .grid, 1, 100⟩
        ⟨(0, 0, 0), [], 1.2⟩).map Prod.fst)
      exact List.mem_append_left _ (List.mem_map.mpr ⟨_, hpr, rfl⟩)
    obtain ⟨r, hr1, hr2⟩ := hsample
    exact ⟨_, hmemA, r, hr1, hr2⟩
  · have hmain : ChaosGenerator.mainPairs ⟨1, 0, 2, .polygon, 2, 3, .lorenz⟩
        ⟨(0, 0, 0), [], 1.2⟩ = [] := by
      apply List.eq_nil_of_length_eq_zero
      rw [chaos_mainPairs_length]
      rfl
    show fillRemaining 1 ((ChaosGenerator.mainPairs ⟨1, 0, 2, .polygon, 2, 3, .lorenz⟩
        ⟨(0, 0, 0), [], 1.2⟩).map Prod.fst) = [none]
    rw [hmain]
    rfl

/-- A quaternion built from Euler angles is a unit quaternion. -/
lemma quatFromEuler_normSq (ex ey ez : ℝ) : quatNormSq (quatFromEuler ex ey ez) = 1 := by
  have h1 := Real.sin_sq_add_cos_sq (ex / 2)
  have h2 := Real.sin_sq_add_cos_sq (ey / 2)
  have h3 := Real.sin_sq_add_cos_sq (ez / 2)
  unfold quatNormSq quatFromEuler
  have expand :
      (Real.sin (ex / 2) * Real.cos (ey / 2) * Real.cos (ez / 2) +
        Real.cos (ex / 2) * Real.sin (ey / 2) * Real.sin (ez / 2)) ^ 2 +
      (Real.cos (ex / 2) * Real.sin (ey / 2) * Real.cos (ez / 2) -
        Real.sin (ex / 2) * Real.cos (ey / 2) * Real.sin (ez / 2)) ^ 2 +
      (Real.cos (ex / 2) * Real.cos (ey / 2) * Real.sin (ez / 2) +
        Real.sin (ex / 2) * Real.sin (ey / 2) * Real.cos (ez / 2)) ^ 2 +
      (Real.cos (ex / 2) * Real.cos (ey / 2) * Real.cos (ez / 2) -
        Real.sin (ex / 2) * Real.sin (ey / 2) * Real.sin (ez / 2)) ^ 2
      = (Real.sin (ex / 2) ^ 2 + Real.cos (ex / 2) ^ 2) *
        ((Real.sin (ey / 2) ^ 2 + Real.cos (ey / 2) ^ 2) *
          (Real.sin (ez / 2) ^ 2 + Real.cos (ez / 2) ^ 2)) := by
    ring
  rw [expand, h1, h2, h3]
  norm_num

/-- Rotation by a unit quaternion preserves the squared norm. -/
lemma applyQuaternion_normSq (q : Quat) (v : Vec3) (hq : quatNormSq q = 1) :
    vecNormSq (applyQuaternion q v) = vecNormSq v := by
  unfold quatNormSq at hq
  unfold vecNormSq applyQuaternion
  linear_combination (4 * ((q.x ^ 2 + q.y ^ 2 + q.z ^ 2) * (v.x ^ 2 + v.y ^ 2 + v.z ^ 2)
    - (q.x * v.x + q.y * v.y + q.z * v.z) ^ 2)) * hq

/-- Every cube vertex has squared norm 3/4. -/
lemma vertices_normSq : ∀ w ∈ CubeGenerator.vertices, vecNormSq w = 3/4 := by
  intro w hw
  simp only [CubeGenerator.vertices, List.mem_cons, List.not_mem_nil, or_false] at hw
  rcases hw with rfl | rfl | rfl | rfl | rfl | rfl | rfl | rfl <;> norm_num [vecNormSq]

/-- Every vertex the path addresses is one of the 8 cube vertices. -/
lemma path_vertex_mem (i : ℕ) :
    CubeGenerator.vertices.getD (CubeGenerator.path.getD i 0) ⟨0, 0, 0⟩
      ∈ CubeGenerator.vertices := by
  have h : CubeGenerator.path.getD i 0 < 8 := by
    rcases lt_or_ge i 17 with h | h
    · interval_cases i <;> decide
    · rw [List.getD_eq_default]
      · norm_num
      · simpa [CubeGenerator.path] using h
  set k := CubeGenerator.path.getD i 0 with hk
  interval_cases k <;> simp [CubeGenerator.vertices]

/-- A quotient `a/d` scaled by 1.2 stays in `[-1, 1]` when
`|a| ≤ (5/6)·d` and `d > 0`. -/
lemma div_scale_bound (a d : ℝ) (hd : 0 < d) (h1 : -(5/6) * d ≤ a) (h2 : a ≤ 5/6 * d) :
    |a / d * 1.2| ≤ 1 := by
  rw [abs_le]
  constructor
  · rw [div_mul_eq_mul_div, le_div_iff₀ hd]
    nlinarith
  · rw [div_mul_eq_mul_div, div_le_iff₀ hd]
    nlinarith

/-- The cube projection of any point of squared norm 3/4 lands in
`[-1, 1]` on both axes: the joint bound `x² + z² ≤ 3/4` keeps
`|x| ≤ (5/6)(z + 1.8)`. -/
lemma project_bound (v : Vec3) (h : vecNormSq v = 3/4) :
    |(CubeGenerator.project v).1| ≤ 1 ∧ |(CubeGenerator.project v).2| ≤ 1 := by
  unfold vecNormSq at h
  have hxz : v.x ^ 2 + v.z ^ 2 ≤ 3/4 := by nlinarith [sq_nonneg v.y]
  have hyz : v.y ^ 2 + v.z ^ 2 ≤ 3/4 := by nlinarith [sq_nonneg v.x]
  have hz : -(13/15) ≤ v.z := by nlinarith [sq_nonneg (v.z + 9/10), sq_nonneg v.x]
  have hd : (0 : ℝ) < v.z + 1.8 := by norm_num; linarith
  have hxb : v.x ^ 2 ≤ (5/6 * (v.z + 1.8)) ^ 2 := by
    nlinarith [sq_nonneg (v.z + 45/61)]
  have hyb : v.y ^ 2 ≤ (5/6 * (v.z + 1.8)) ^ 2 := by
    nlinarith [sq_nonneg (v.z + 45/61)]
  constructor
  · apply div_scale_bound _ _ hd
    · nlinarith [sq_nonneg (v.x + 5/6 * (v.z + 1.8))]
    · nlinarith [sq_nonneg (v.x - 5/6 * (v.z + 1.8))]
  · apply div_scale_bound _ _ hd
    · nlinarith [sq_nonneg (v.y + 5/6 * (v.z + 1.8))]
    · nlinarith [sq_nonneg (v.y - 5/6 * (v.z + 1.8))]

/-- Both coordinates of every projected path endpoint are bounded by 1 in
absolute value, for any unit rotation quaternion. -/
lemma endpoint_bound (q : Quat) (hq : quatNormSq q = 1) (i : ℕ) :
    |(CubeGenerator.endpoint q i).1| ≤ 1 ∧ |(CubeGenerator.endpoint q i).2| ≤ 1 := by
  unfold CubeGenerator.endpoint
  apply project_bound
  rw [applyQuaternion_normSq _ _ hq]
  exact vertices_normSq _ (path_vertex_mem i)

/-- Linear interpolation between two values of absolute value at most 1,
with parameter in `[0, 1]`, stays within absolute value 1. -/
lemma lerp_bound (a b t : ℝ) (ha : |a| ≤ 1) (hb : |b| ≤ 1) (ht0 : 0 ≤ t) (ht1 : t ≤ 1) :
    |a + (b - a) * t| ≤ 1 := by
  rw [abs_le] at ha hb ⊢
  constructor
  · nlinarith [mul_nonneg (by linarith : (0:ℝ) ≤ 1 - t) (by linarith : (0:ℝ) ≤ a + 1),
      mul_nonneg ht0 (by linarith : (0:ℝ) ≤ b + 1)]
  · nlinarith [mul_nonneg (by linarith : (0:ℝ) ≤ 1 - t) (by linarith : (0:ℝ) ≤ 1 - a),
      mul_nonneg ht0 (by linarith : (0:ℝ) ≤ 1 - b)]

/-- Every sample of one interpolated cube segment is a finite value in
`[-1, 1]` on both channels, for any unit rotation quaternion. -/
lemma segmentPoints_bounds (q : Quat) (hq : quatNormSq q = 1) (pps i : ℕ) :
    ∀ pr ∈ CubeGenerator.segmentPoints q pps i,
      (∃ r, pr.1 = some r ∧ -1 ≤ r ∧ r ≤ 1) ∧
      (∃ r, pr.2 = some r ∧ -1 ≤ r ∧ r ≤ 1) := by
  intro pr hpr
  simp only [CubeGenerator.segmentPoints, List.mem_map, List.mem_range] at hpr
  obtain ⟨j, hj, rfl⟩ := hpr
  have hpps : (0 : ℝ) < (pps : ℝ) := by
    exact_mod_cast Nat.pos_of_ne_zero (by omega)
  have ht0 : (0 : ℝ) ≤ (j : ℝ) / (pps : ℝ) := by positivity
  have ht1 : (j : ℝ) / (pps : ℝ) ≤ 1 := by
    rw [div_le_one hpps]
    exact_mod_cast le_of_lt hj
  have he1 := endpoint_bound q hq i
  have he2 := endpoint_bound q hq (i + 1)
  constructor
  · refine ⟨_, rfl, ?_⟩
    have := abs_le.mp (lerp_bound _ _ _ he1.1 he2.1 ht0 ht1)
    exact this
  · refine ⟨_, rfl, ?_⟩
    have := abs_le.mp (lerp_bound _ _ _ he1.2 he2.2 ht0 ht1)
    exact this

/-- Each interpolated segment contributes exactly `pointsPerSegment`
samples. -/
lemma segmentPoints_length (q : Quat) (pps i : ℕ) :
    (CubeGenerator.segmentPoints q pps i).length = pps := by
  simp [CubeGenerator.segmentPoints]

/-- `totalSegments` evaluates to 16. -/
lemma totalSegments_eq : CubeGenerator.totalSegments = 16 := rfl

/-- The number of samples written by the cube tick's loops. -/
lemma cube_mainPairs_length (pc : ℕ) (q : Quat) :
    (CubeGenerator.mainPairs pc q).length = 16 * (pc / 16) := by
  unfold CubeGenerator.mainPairs
  rw [List.length_flatten, List.map_map]
  have h : (List.length ∘ fun i => CubeGenerator.segmentPoints q
      (pc / CubeGenerator.totalSegments) i) = fun _ : ℕ => pc / 16 := by
    funext i
    simp [segmentPoints_length, totalSegments_eq]
  rw [h, List.map_const', List.sum_replicate, List.length_range, smul_eq_mul,
    totalSegments_eq]

/-- Every written cube sample comes from one of the 16 segments. -/
lemma cube_mainPairs_mem (pc : ℕ) (q : Quat) :
    ∀ pr ∈ CubeGenerator.mainPairs pc q, ∃ i,
      pr ∈ CubeGenerator.segmentPoints q (pc / CubeGenerator.totalSegments) i := by
  intro pr hpr
  unfold CubeGenerator.mainPairs at hpr
  rw [List.mem_flatten] at hpr
  obtain ⟨l, hl, hpl⟩ := hpr
  rw [List.mem_map] at hl
  obtain ⟨i, _, rfl⟩ := hl
  exact ⟨i, hpl⟩

/-- The 16 order-normalized segment index pairs, computed. -/
lemma segmentPairs_eq :
    CubeGenerator.segmentPairs = [(0, 1), (1, 2), (2, 3), (0, 3), (0, 4), (4, 5), (5, 6),
      (6, 7), (4, 7), (0, 4), (0, 3), (3, 7), (6, 7), (2, 6), (1, 2), (1, 5)] := by
  rfl

/-- Each of the 16 stroke segments connects two adjacent cube vertices. -/
lemma segmentPairs_edges :
    ∀ pr ∈ CubeGenerator.segmentPairs,
      CubeGenerator.IsCubeEdge (CubeGenerator.vertices.getD pr.1 ⟨0, 0, 0⟩)
        (CubeGenerator.vertices.getD pr.2 ⟨0, 0, 0⟩) := by
  intro pr hpr
  rw [segmentPairs_eq] at hpr
  fin_cases hpr <;>
    norm_num [CubeGenerator.vertices, CubeGenerator.IsCubeEdge, List.getD_cons_zero,
      List.getD_cons_succ]

/-- Every geometric cube edge occurs among the 16 stroke segments. -/
lemma cube_edges_covered :
    ∀ a b : ℕ, a < 8 → b < 8 →
      CubeGenerator.IsCubeEdge (CubeGenerator.vertices.getD a ⟨0, 0, 0⟩)
        (CubeGenerator.vertices.getD b ⟨0, 0, 0⟩) →
      (min a b, max a b) ∈ CubeGenerator.segmentPairs := by
  intro a b ha hb h
  interval_cases a <;> interval_cases b <;>
    first
      | decide
      | (exfalso; revert h; norm_num [CubeGenerator.IsCubeEdge, CubeGenerator.vertices,
          List.getD_cons_zero, List.getD_cons_succ])

/-- Claim C4, amended.  For the cube generator with pointsCount = 2000
(cloneCount/layoutMode do not exist as cube parameters and are ignored):
every tick publishes exactly 2000 points per channel; every published
coordinate is a finite value in `[-1, 1]` (hence also within
`[-1.5, 1.5]`; the cube generator applies no clamp, its raw outputs
already satisfy both bounds); the 16 consecutive segments of the fixed
17-index vertex path each connect two adjacent cube vertices, and the
segments cover exactly the 12 distinct cube edges.  The stroke is
continuous but OPEN, not closed: the path ends at vertex 5 while it
starts at vertex 0 (see the counterexample). -/
theorem cube_scenario (speed : ℝ) (euler : ℝ × ℝ × ℝ) :
    ((CubeGenerator.tick 2000 speed euler).2.1.length = 2000 ∧
     (CubeGenerator.tick 2000 speed euler).2.2.length = 2000) ∧
    ((∀ x ∈ (CubeGenerator.tick 2000 speed euler).2.1, ∃ r, x = some r ∧ -1 ≤ r ∧ r ≤ 1) ∧
     (∀ x ∈ (CubeGenerator.tick 2000 speed euler).2.2, ∃ r, x = some r ∧ -1 ≤ r ∧ r ≤ 1)) ∧
    (∀ pr ∈ CubeGenerator.segmentPairs,
      CubeGenerator.IsCubeEdge (CubeGenerator.vertices.getD pr.1 ⟨0, 0, 0⟩)
        (CubeGenerator.vertices.getD pr.2 ⟨0, 0, 0⟩)) ∧
    (∀ a b : ℕ, a < 8 → b < 8 →
      CubeGenerator.IsCubeEdge (CubeGenerator.vertices.getD a ⟨0, 0, 0⟩)
        (CubeGenerator.vertices.getD b ⟨0, 0, 0⟩) →
      (min a b, max a b) ∈ CubeGenerator.segmentPairs) ∧
    (CubeGenerator.segmentPairs.length = 16 ∧
     CubeGenerator.segmentPairs.dedup.length = 12) := by
  have hq : quatNormSq (CubeGenerator.tickQuat speed euler) = 1 :=
    quatFromEuler_normSq _ _ _
  have hlenA : ((CubeGenerator.mainPairs 2000 (CubeGenerator.tickQuat speed euler)).map
      Prod.fst).length = 2000 := by
    rw [List.length_map, cube_mainPairs_length]
  have hlenB : ((CubeGenerator.mainPairs 2000 (CubeGenerator.tickQuat speed euler)).map
      Prod.snd).length = 2000 := by
    rw [List.length_map, cube_mainPairs_length]
  have hneA : (CubeGenerator.mainPairs 2000 (CubeGenerator.tickQuat speed euler)).map
      Prod.fst ≠ [] := by
    intro h
    rw [h] at hlenA
    simp at hlenA
  have hneB : (CubeGenerator.mainPairs 2000 (CubeGenerator.tickQuat speed euler)).map
      Prod.snd ≠ [] := by
    intro h
    rw [h] at hlenB
    simp at hlenB
  refine ⟨⟨?_, ?_⟩, ⟨?_, ?_⟩, segmentPairs_edges, cube_edges_covered, by decide, by decide⟩
  · show (fillRemaining 2000 ((CubeGenerator.mainPairs 2000
      (CubeGenerator.tickQuat speed euler)).map Prod.fst)).length = 2000
    unfold fillRemaining
    rw [List.length_append, List.length_replicate, hlenA]
  · show (fillRemaining 2000 ((CubeGenerator.mainPairs 2000
      (CubeGenerator.tickQuat speed euler)).map Prod.snd)).length = 2000
    unfold fillRemaining
    rw [List.length_append, List.length_replicate, hlenB]
  · intro x hx
    have hx2 := fillRemaining_mem hneA x hx
    rw [List.mem_map] at hx2
    obtain ⟨pr, hpr, rfl⟩ := hx2
    obtain ⟨i, hi⟩ := cube_mainPairs_mem 2000 (CubeGenerator.tickQuat speed euler) pr hpr
    exact (segmentPoints_bounds _ hq _ i pr hi).1
  · intro x hx
    have hx2 := fillRemaining_mem hneB x hx
    rw [List.mem_map] at hx2
    obtain ⟨pr, hpr, rfl⟩ := hx2
    obtain ⟨i, hi⟩ := cube_mainPairs_mem 2000 (CubeGenerator.tickQuat speed euler) pr hpr
    exact (segmentPoints_bounds _ hq _ i pr hi).2

/-- Witness for the amended claim C4: at rotation speed 0 from the zero
Euler state, channel A has exactly 2000 entries, and the cube edge
between vertices 0 and 1 is covered by a stroke segment. -/
theorem cube_scenario_witness :
    (CubeGenerator.tick 2000 0 (0, 0, 0)).2.1.length = 2000 ∧
    (min 0 1, max 0 1) ∈ CubeGenerator.segmentPairs :=
  ⟨(cube_scenario 0 (0, 0, 0)).1.1,
   (cube_scenario 0 (0, 0, 0)).2.2.2.1 0 1 (by norm_num) (by norm_num)
     (by norm_num [CubeGenerator.vertices, CubeGenerator.IsCubeEdge, List.getD_cons_zero,
       List.getD_cons_succ])⟩

/-- Claim C4's "closed continuous stroke" is false: the 17-index path
starts at vertex 0 but ends at vertex 5, two vertices that differ in two
coordinates (no cube edge joins them), so the stroke is open — the beam
does not return to its starting corner. -/
theorem cube_stroke_not_closed :
    CubeGenerator.path.head? = some 0 ∧ CubeGenerator.path.getLast? = some 5 ∧
    CubeGenerator.vertices.getD 0 ⟨0, 0, 0⟩ ≠ CubeGenerator.vertices.getD 5 ⟨0, 0, 0⟩ ∧
    ¬ CubeGenerator.IsCubeEdge (CubeGenerator.vertices.getD 0 ⟨0, 0, 0⟩)
        (CubeGenerator.vertices.getD 5 ⟨0, 0, 0⟩) := by
  refine ⟨rfl, rfl, ?_, ?_⟩
  · intro h
    have hx : (CubeGenerator.vertices.getD 0 ⟨0, 0, 0⟩).x
        = (CubeGenerator.vertices.getD 5 ⟨0, 0, 0⟩).x := by rw [h]
    norm_num [CubeGenerator.vertices, List.getD_cons_zero, List.getD_cons_succ] at hx
  · norm_num [CubeGenerator.IsCubeEdge, CubeGenerator.vertices, List.getD_cons_zero,
      List.getD_cons_succ]

/-- For a nonnegative dividend and positive divisor the JavaScript
remainder agrees with the mathematical one: it lies in `[0, y)`. -/
lemma jsMod_nonneg_lt (x y : ℝ) (hx : 0 ≤ x) (hy : 0 < y) :
    0 ≤ jsMod x y ∧ jsMod x y < y := by
  have hq : 0 ≤ x / y := div_nonneg hx (le_of_lt hy)
  unfold jsMod jsTrunc
  rw [if_pos hq]
  constructor
  · have h1 : (⌊x / y⌋ : ℝ) ≤ x / y := Int.floor_le _
    have h2 : y * (⌊x / y⌋ : ℝ) ≤ y * (x / y) := by
      exact mul_le_mul_of_nonneg_left h1 (le_of_lt hy)
    rw [mul_div_cancel₀ x (ne_of_gt hy)] at h2
    linarith
  · have h1 : x / y < (⌊x / y⌋ : ℝ) + 1 := Int.lt_floor_add_one _
    have h2 : y * (x / y) < y * ((⌊x / y⌋ : ℝ) + 1) := by
      exact mul_lt_mul_of_pos_left h1 hy
    rw [mul_div_cancel₀ x (ne_of_gt hy)] at h2
    nlinarith

/-- Scaling a factor in `[-1, 1]` by a nonnegative amplitude and shifting
by the offset keeps the sample in `[offset - amplitude, offset + amplitude]`. -/
lemma amp_shift_bound (amp off f : ℝ) (hamp : 0 ≤ amp) (hf1 : -1 ≤ f) (hf2 : f ≤ 1) :
    off - amp ≤ amp * f + off ∧ amp * f + off ≤ off + amp := by
  constructor <;> nlinarith

/-- For nonnegative phase the folded phase ratio
`phaseTime/period` of the square/sawtooth/triangle generators lies in
`[0, 1)`. -/
lemma phaseRatio_mem (c : SignalGenerator.SignalConfig) (i : ℕ)
    (hrate : 0 < c.sampleRate) (hphase : 0 ≤ c.phase) (hfreq : 0 < c.frequency) :
    0 ≤ SignalGenerator.phaseTime c i / (1 / c.frequency) ∧
    SignalGenerator.phaseTime c i / (1 / c.frequency) < 1 := by
  have hper : (0 : ℝ) < 1 / c.frequency := by positivity
  have hx : (0 : ℝ) ≤ (i : ℝ) / c.sampleRate + c.phase / (2 * Real.pi) := by
    have h1 : (0 : ℝ) ≤ (i : ℝ) / c.sampleRate := by positivity
    have h2 : (0 : ℝ) ≤ c.phase / (2 * Real.pi) := by
      apply div_nonneg hphase
      have := Real.pi_pos
      linarith
    linarith
  obtain ⟨h1, h2⟩ := jsMod_nonneg_lt _ _ hx hper
  constructor
  · exact div_nonneg h1 (le_of_lt hper)
  · rw [div_lt_one hper]
    exact h2

/-- Claim C3, amended.  For every waveform type and every config with
`amplitude ≥ 0`, `sampleRate > 0`, `duration ≥ 0`, nonnegative `phase`
and positive `frequency` (and `Math.random` draws in `[0,1)`),
`generate` returns a buffer of `Math.floor(sampleRate·duration)` samples
(floor, not round), each in `[offset - amplitude, offset + amplitude]`. -/
theorem generate_length_and_range (t : SignalGenerator.WaveformType)
    (c : SignalGenerator.SignalConfig) (rnd : ℕ → ℝ)
    (hamp : 0 ≤ c.amplitude) (hrate : 0 < c.sampleRate) (hdur : 0 ≤ c.duration)
    (hphase : 0 ≤ c.phase) (hfreq : 0 < c.frequency)
    (hrnd : ∀ i, 0 ≤ rnd i ∧ rnd i < 1) :
    (SignalGenerator.generate t c rnd).length = SignalGenerator.numSamples c ∧
    ∀ x ∈ SignalGenerator.generate t c rnd,
      c.offset - c.amplitude ≤ x ∧ x ≤ c.offset + c.amplitude := by
  constructor
  · simp [SignalGenerator.generate]
  · intro x hx
    simp only [SignalGenerator.generate, List.mem_map, List.mem_range] at hx
    obtain ⟨i, _, rfl⟩ := hx
    cases t with
    | sine =>
      exact amp_shift_bound _ _ _ hamp (Real.neg_one_le_sin _) (Real.sin_le_one _)
    | square =>
      show c.offset - c.amplitude ≤ SignalGenerator.squareSample c i ∧
        SignalGenerator.squareSample c i ≤ c.offset + c.amplitude
      unfold SignalGenerator.squareSample
      by_cases h : SignalGenerator.phaseTime c i < (1 / c.frequency) / 2
      · rw [if_pos h]
        exact amp_shift_bound _ _ _ hamp (by norm_num) (by norm_num)
      · rw [if_neg h]
        exact amp_shift_bound _ _ _ hamp (by norm_num) (by norm_num)
    | sawtooth =>
      show c.offset - c.amplitude ≤ SignalGenerator.sawtoothSample c i ∧
        SignalGenerator.sawtoothSample c i ≤ c.offset + c.amplitude
      unfold SignalGenerator.sawtoothSample
      obtain ⟨h0, h1⟩ := phaseRatio_mem c i hrate hphase hfreq
      exact amp_shift_bound _ _ _ hamp (by linarith) (by linarith)
    | triangle =>
      show c.offset - c.amplitude ≤ SignalGenerator.triangleSample c i ∧
        SignalGenerator.triangleSample c i ≤ c.offset + c.amplitude
      unfold SignalGenerator.triangleSample
      obtain ⟨h0, h1⟩ := phaseRatio_mem c i hrate hphase hfreq
      by_cases h : SignalGenerator.phaseTime c i / (1 / c.frequency) < 1 / 2
      · rw [if_pos h]
        exact amp_shift_bound _ _ _ hamp (by linarith) (by linarith)
      · rw [if_neg h]
        push_neg at h
        exact amp_shift_bound _ _ _ hamp (by linarith) (by linarith)
    | noise =>
      show c.offset - c.amplitude ≤ SignalGenerator.noiseSample c rnd i ∧
        SignalGenerator.noiseSample c rnd i ≤ c.offset + c.amplitude
      unfold SignalGenerator.noiseSample
      obtain ⟨h0, h1⟩ := hrnd i
      exact amp_shift_bound _ _ _ hamp (by linarith) (by linarith)

/-- Witness for the amended claim C3: a 3-sample sine buffer (sampleRate
3, duration 1) stays within `[offset - amplitude, offset + amplitude]`. -/
theorem generate_length_and_range_witness :
    (SignalGenerator.generate .sine ⟨1, 1, 0, 0, 3, 1⟩ (fun _ => 0)).length
      = SignalGenerator.numSamples ⟨1, 1, 0, 0, 3, 1⟩ ∧
    ∀ x ∈ SignalGenerator.generate .sine ⟨1, 1, 0, 0, 3, 1⟩ (fun _ => 0),
      (0 : ℝ) - 1 ≤ x ∧ x ≤ 0 + 1 :=
  generate_length_and_range .sine ⟨1, 1, 0, 0, 3, 1⟩ (fun _ => 0) (by norm_num)
    (by norm_num) (by norm_num) (by norm_num) (by norm_num)
    (fun _ => by norm_num)

/-- Claim C3 as stated is false on two counts.  (a) The buffer length is
`Math.floor(sampleRate·duration)`, not `round`: at sampleRate 3 and
duration 1/2 the buffer has 1 sample, while `round(1.5) = 2`.  (b) For a
negative phase the mod-based waveforms escape
`[offset - amplitude, offset + amplitude]`: the sawtooth with phase `-π`,
frequency 1, amplitude 1, offset 0 produces the sample `-2` at index 0. -/
theorem generate_counterexample :
    ((SignalGenerator.generate .sine ⟨1, 1, 0, 0, 3, 1/2⟩ (fun _ => 0)).length : ℤ)
      ≠ round ((3 : ℝ) * (1/2)) ∧
    ∃ x ∈ SignalGenerator.generate .sawtooth ⟨1, 1, -Real.pi, 0, 1, 1⟩ (fun _ => 0),
      x < (0 : ℝ) - 1 := by
  constructor
  · have hlen : (SignalGenerator.generate .sine ⟨1, 1, 0, 0, 3, 1/2⟩ (fun _ => 0)).length
        = 1 := by
      simp [SignalGenerator.generate, SignalGenerator.numSamples]
      norm_num
    rw [hlen]
    have : round ((3 : ℝ) * (1/2)) = 2 := by
      rw [round_eq]
      norm_num
    rw [this]
    norm_num
  · have hnum : SignalGenerator.numSamples ⟨1, 1, -Real.pi, 0, 1, 1⟩ = 1 := by
      simp [SignalGenerator.numSamples]
    have hpt : SignalGenerator.phaseTime ⟨1, 1, -Real.pi, 0, 1, 1⟩ 0 = -(1/2) := by
      unfold SignalGenerator.phaseTime
      have hπ : (2 : ℝ) * Real.pi ≠ 0 := by
        have := Real.pi_pos
        positivity
      have harg : ((0 : ℕ) : ℝ) / (1 : ℝ) + (-Real.pi) / (2 * Real.pi) = -(1/2) := by
        rw [neg_div, div_mul_eq_div_div_swap]
        rw [div_self Real.pi_ne_zero]
        norm_num
      rw [show ((⟨1, 1, -Real.pi, 0, 1, 1⟩ :
        SignalGenerator.SignalConfig).sampleRate) = (1 : ℝ) from rfl]
      rw [show ((⟨1, 1, -Real.pi, 0, 1, 1⟩ :
        SignalGenerator.SignalConfig).phase) = -Real.pi from rfl]
      rw [show ((⟨1, 1, -Real.pi, 0, 1, 1⟩ :
        SignalGenerator.SignalConfig).frequency) = (1 : ℝ) from rfl]
      rw [harg]
      unfold jsMod jsTrunc
      rw [if_neg (by norm_num)]
      norm_num
    refine ⟨SignalGenerator.sawtoothSample ⟨1, 1, -Real.pi, 0, 1, 1⟩ 0, ?_, ?_⟩
    · simp only [SignalGenerator.generate, List.mem_map, List.mem_range]
      exact ⟨0, by rw [hnum]; norm_num, rfl⟩
    · unfold SignalGenerator.sawtoothSample
      rw [hpt]
      norm_num

/-- The auto-scale error contracts by the factor `1 - alpha` each tick:
the distance to `targetPeak/peak` after `n` ticks is the initial distance
scaled by `(1 - alpha)^n`. -/
lemma autoScaleStep_iterate_sub (tp p alpha s0 : ℚ) (hp : p ≠ 0) (n : ℕ) :
    (fun s => WindowExtractor.autoScaleStep tp p alpha s)^[n] s0 - tp / p
      = (1 - alpha) ^ n * (s0 - tp / p) := by
  have hstep : ∀ s, WindowExtractor.autoScaleStep tp p alpha s - tp / p
      = (1 - alpha) * (s - tp / p) := by
    intro s
    unfold WindowExtractor.autoScaleStep WindowExtractor.autoScaleTarget
    rw [if_neg hp]
    ring
  induction n with
  | zero => simp
  | succ n ih =>
    rw [Function.iterate_succ_apply']
    show WindowExtractor.autoScaleStep tp p alpha
        ((fun s => WindowExtractor.autoScaleStep tp p alpha s)^[n] s0) - tp / p = _
    rw [hstep, ih]
    ring

/-- Claim C6.  With auto-scale enabled and a constant input held across
ticks whose peak absolute value is positive, the smoothed scale converges
to within any `ε > 0` of `targetPeak/peak` after finitely many ticks,
from any initial scale and for any smoothing factor `alpha ∈ (0, 1]`;
and when the peak is 0 the target multiplier used is 1. -/
theorem autoscale_converges (buf : List ℚ) (tp alpha s0 eps : ℚ)
    (hp : 0 < WindowExtractor.windowPeak buf) (ha0 : 0 < alpha) (ha1 : alpha ≤ 1)
    (he : 0 < eps) :
    (∃ N, ∀ n, N ≤ n →
      |(fun s => WindowExtractor.autoScaleStep tp (WindowExtractor.windowPeak buf) alpha s)^[n]
          s0 - tp / WindowExtractor.windowPeak buf| < eps) ∧
    WindowExtractor.autoScaleTarget tp 0 = 1 := by
  constructor
  · set p := WindowExtractor.windowPeak buf with hpdef
    set T := tp / p with hT
    have hkey : ∀ n, (fun s => WindowExtractor.autoScaleStep tp p alpha s)^[n] s0 - T
        = (1 - alpha) ^ n * (s0 - T) := autoScaleStep_iterate_sub tp p alpha s0 (ne_of_gt hp)
    have hr0 : (0 : ℚ) ≤ 1 - alpha := by linarith
    have hr1 : 1 - alpha < 1 := by linarith
    by_cases hs : s0 - T = 0
    · refine ⟨0, fun n _ => ?_⟩
      rw [hkey n, hs]
      simpa using he
    · have habs : 0 < |s0 - T| := abs_pos.mpr hs
      obtain ⟨N, hN⟩ := exists_pow_lt_of_lt_one (div_pos he habs) hr1
      refine ⟨N, fun n hn => ?_⟩
      rw [hkey n, abs_mul, abs_pow, abs_of_nonneg hr0]
      have hmono : (1 - alpha) ^ n ≤ (1 - alpha) ^ N :=
        pow_le_pow_of_le_one hr0 (by linarith) hn
      have : (1 - alpha) ^ n < eps / |s0 - T| := lt_of_le_of_lt hmono hN
      calc (1 - alpha) ^ n * |s0 - T| < eps / |s0 - T| * |s0 - T| := by
            exact mul_lt_mul_of_pos_right this habs
        _ = eps := div_mul_cancel₀ eps (ne_of_gt habs)
  · unfold WindowExtractor.autoScaleTarget
    rw [if_pos rfl]

/-- Witness for claim C6, at the constant window `[1]` (peak 1), target
peak 9/10, `alpha = 1`, initial scale 0 and `ε = 1`. -/
theorem autoscale_converges_witness :
    (∃ N, ∀ n, N ≤ n →
      |(fun s => WindowExtractor.autoScaleStep (9/10) (WindowExtractor.windowPeak [1]) 1 s)^[n]
          0 - (9/10) / WindowExtractor.windowPeak [1]| < 1) ∧
    WindowExtractor.autoScaleTarget (9/10) 0 = 1 :=
  autoscale_converges [1] (9/10) 1 0 1 (by norm_num [WindowExtractor.windowPeak])
    (by norm_num) (by norm_num) (by norm_num)

/-- If the scan returns 0 from a positive starting index, no adjacent
pair in its remaining input crosses the level. -/
lemma findAux_eq_zero (level : ℚ) (edge : SignalGenerator.Edge) :
    ∀ (rest : List ℚ) (prev : ℚ) (k : ℕ), 1 ≤ k →
      SignalGenerator.findAux level edge rest prev k = 0 →
      ∀ j < rest.length,
        SignalGenerator.crossing edge level ((prev :: rest).getD j 0) (rest.getD j 0)
          = false := by
  intro rest
  induction rest with
  | nil => intro prev k _ _ j hj; simp at hj
  | cons cur rest ih =>
    intro prev k hk h0 j hj
    unfold SignalGenerator.findAux at h0
    by_cases hc : SignalGenerator.crossing edge level prev cur = true
    · rw [if_pos hc] at h0
      omega
    · rw [Bool.not_eq_true] at hc
      rw [if_neg (by simp [hc])] at h0
      match j with
      | 0 => simpa using hc
      | j + 1 =>
        have := ih cur (k + 1) (by omega) h0 j (by simpa using hj)
        simpa using this

/-- If the scan does not return 0, it returns the offset of the first
crossing pair relative to its starting index. -/
lemma findAux_found (level : ℚ) (edge : SignalGenerator.Edge) :
    ∀ (rest : List ℚ) (prev : ℚ) (k : ℕ), 1 ≤ k →
      SignalGenerator.findAux level edge rest prev k ≠ 0 →
      ∃ j, j < rest.length ∧ SignalGenerator.findAux level edge rest prev k = k + j ∧
        SignalGenerator.crossing edge level ((prev :: rest).getD j 0) (rest.getD j 0)
          = true ∧
        ∀ j2 < j,
          SignalGenerator.crossing edge level ((prev :: rest).getD j2 0) (rest.getD j2 0)
            = false := by
  intro rest
  induction rest with
  | nil => intro prev k _ h0; exact absurd rfl h0
  | cons cur rest ih =>
    intro prev k hk h0
    unfold SignalGenerator.findAux at h0 ⊢
    by_cases hc : SignalGenerator.crossing edge level prev cur = true
    · refine ⟨0, by simp, ?_, by simpa using hc, by omega⟩
      rw [if_pos hc]
      omega
    · rw [Bool.not_eq_true] at hc
      rw [if_neg (by simp [hc])] at h0 ⊢
      obtain ⟨j, hjlen, hjr, hjcross, hjmin⟩ := ih cur (k + 1) (by omega) h0
      refine ⟨j + 1, by simpa using hjlen, by omega, by simpa using hjcross, ?_⟩
      intro j2 hj2
      match j2 with
      | 0 => simpa using hc
      | j2 + 1 =>
        have := hjmin j2 (by omega)
        simpa using this

/-- Claim C5.  `findTriggerPoint` returns the smallest index `i ≥ 1` at
which the buffer crosses the level with the requested edge (in
particular, the unique crossing index `k` when there is exactly one), and
returns 0 when no crossing exists. -/
theorem findTriggerPoint_first_crossing (buffer : List ℚ) (level : ℚ)
    (edge : SignalGenerator.Edge) :
    ((∃ i, SignalGenerator.CrossAt buffer level edge i) →
      SignalGenerator.CrossAt buffer level edge
        (SignalGenerator.findTriggerPoint buffer level edge) ∧
      ∀ i, SignalGenerator.CrossAt buffer level edge i →
        SignalGenerator.findTriggerPoint buffer level edge ≤ i) ∧
    ((¬ ∃ i, SignalGenerator.CrossAt buffer level edge i) →
      SignalGenerator.findTriggerPoint buffer level edge = 0) := by
  match buffer with
  | [] =>
    constructor
    · rintro ⟨i, hi⟩
      exact absurd hi.2.1 (by simp)
    · intro _
      rfl
  | p :: rest =>
    show ((∃ i, SignalGenerator.CrossAt (p :: rest) level edge i) →
        SignalGenerator.CrossAt (p :: rest) level edge
          (SignalGenerator.findAux level edge rest p 1) ∧
        ∀ i, SignalGenerator.CrossAt (p :: rest) level edge i →
          SignalGenerator.findAux level edge rest p 1 ≤ i) ∧ _
    by_cases hr : SignalGenerator.findAux level edge rest p 1 = 0
    · have hnone := findAux_eq_zero level edge rest p 1 (le_refl 1) hr
      constructor
      · rintro ⟨i, h1, hlen, hcross⟩
        exfalso
        obtain ⟨j, rfl⟩ : ∃ j, i = j + 1 := ⟨i - 1, by omega⟩
        have hfalse := hnone j (by simpa using hlen)
        rw [show j + 1 - 1 = j from rfl] at hcross
        rw [List.getD_cons_succ] at hcross
        rw [hcross] at hfalse
        simp at hfalse
      · intro _
        exact hr
    · obtain ⟨j, hjlen, hjr, hjcross, hjmin⟩ :=
        findAux_found level edge rest p 1 (le_refl 1) hr
      have hcrossAt : SignalGenerator.CrossAt (p :: rest) level edge (1 + j) := by
        refine ⟨by omega, by simp; omega, ?_⟩
        rw [show 1 + j - 1 = j from by omega]
        rw [show 1 + j = j + 1 from by omega, List.getD_cons_succ]
        exact hjcross
      constructor
      · intro _
        rw [hjr]
        constructor
        · exact hcrossAt
        · rintro i ⟨h1, hlen, hcross⟩
          by_contra hlt
          obtain ⟨j2, rfl⟩ : ∃ j2, i = j2 + 1 := ⟨i - 1, by omega⟩
          have hfalse := hjmin j2 (by omega)
          rw [show j2 + 1 - 1 = j2 from rfl] at hcross
          rw [List.getD_cons_succ] at hcross
          rw [hcross] at hfalse
          simp at hfalse
      · intro hno
        exact absurd ⟨1 + j, hcrossAt⟩ hno

/-- Witness for claim C5: the buffer `[0, 1]` crosses level 1/2 exactly
once, at index 1, and `findTriggerPoint` lands on a crossing no later
than index 1. -/
theorem findTriggerPoint_witness :
    SignalGenerator.CrossAt [0, 1] (1/2) .rising
      (SignalGenerator.findTriggerPoint [0, 1] (1/2) .rising) ∧
    SignalGenerator.findTriggerPoint [0, 1] (1/2) .rising ≤ 1 := by
  have hc : SignalGenerator.CrossAt [0, 1] (1/2) .rising 1 := by
    refine ⟨le_refl 1, by norm_num, ?_⟩
    simp [SignalGenerator.crossing]
    norm_num
  have h := (findTriggerPoint_first_crossing [0, 1] (1/2) .rising).1 ⟨1, hc⟩
  exact ⟨h.1, h.2 1 hc⟩

/-- Feeding `n` constant samples into an empty history leaves exactly
`min n 43` copies: the sliding window retains the 43 most recent. -/
lemma feedConst_eq (M : ℚ) (n : ℕ) :
    FeatureExtractor.feedConst M n = List.replicate (min n 43) M := by
  induction n with
  | zero => simp [FeatureExtractor.feedConst]
  | succ n ih =>
    unfold FeatureExtractor.feedConst at ih ⊢
    rw [Function.iterate_succ_apply', ih]
    unfold FeatureExtractor.pushHistory
    by_cases hn : n < 43
    · rw [min_eq_left (by omega), min_eq_left (by omega)]
      rw [if_neg (by simp; omega)]
      rw [← List.replicate_succ']
    · rw [min_eq_right (by omega), min_eq_right (by omega)]
      rw [if_pos (by simp)]
      rw [← List.replicate_succ']
      rw [show (42 + 1) + 1 = 43 + 1 by rfl, List.replicate_succ]
      rfl

/-- Claim C7 (with the cooldown condition read strictly, as the code has
it).  From a history of 43 constant samples `M > 0` (obtained by feeding
`n ≥ 43` constant ticks), a spike of `1.5·threshold·M` with
`threshold = 1.4` fires a beat when strictly more than `cooldownMs = 120`
ms have elapsed, with confidence
`min(1, RMS/(mean·threshold) - 1) = 68/147 ∈ (0, 1]`, and records the
spike's timestamp. -/
theorem beat_fires_on_constant_history_spike (M : ℚ) (n : ℕ) (last now : ℤ)
    (hM : 0 < M) (hn : 43 ≤ n) (hcool : 120 < now - last) :
    (FeatureExtractor.beatUpdate (7/5) 120 ⟨FeatureExtractor.feedConst M n, last⟩
        (3/2 * (7/5 * M)) now).isBeat = true ∧
    (FeatureExtractor.beatUpdate (7/5) 120 ⟨FeatureExtractor.feedConst M n, last⟩
        (3/2 * (7/5 * M)) now).confidence = 68/147 ∧
    (0 : ℚ) < 68/147 ∧ (68 : ℚ)/147 ≤ 1 ∧
    (FeatureExtractor.beatUpdate (7/5) 120 ⟨FeatureExtractor.feedConst M n, last⟩
        (3/2 * (7/5 * M)) now).state.lastBeat = now := by
  have hfeed : FeatureExtractor.feedConst M n = List.replicate 43 M := by
    rw [feedConst_eq, min_eq_right (by omega)]
  have hpush : FeatureExtractor.pushHistory (List.replicate 43 M) (3/2 * (7/5 * M))
      = List.replicate 42 M ++ [3/2 * (7/5 * M)] := by
    unfold FeatureExtractor.pushHistory
    rw [if_pos (by simp)]
    rw [show (43 : ℕ) = 42 + 1 from rfl, List.replicate_succ]
    rfl
  have hmean : FeatureExtractor.historyMean (List.replicate 42 M ++ [3/2 * (7/5 * M)])
      = (42 * M + 21 * M / 10) / 43 := by
    unfold FeatureExtractor.historyMean
    have hs : (List.replicate 42 M ++ [3/2 * (7/5 * M)]).sum = 42 * M + 21 * M / 10 := by
      simp [List.sum_replicate, nsmul_eq_mul]
      ring
    have hl : ((List.replicate 42 M ++ [3/2 * (7/5 * M)]).length : ℚ) = 43 := by
      simp
    rw [hs, hl]
  have hcond : FeatureExtractor.historyMean (List.replicate 42 M ++ [3/2 * (7/5 * M)])
      * (7/5) < 3/2 * (7/5 * M) := by
    rw [hmean]
    rw [div_mul_eq_mul_div, div_lt_iff₀ (by norm_num)]
    nlinarith [hM]
  have hconf : min (1 : ℚ)
      (3/2 * (7/5 * M) / (FeatureExtractor.historyMean
        (List.replicate 42 M ++ [3/2 * (7/5 * M)]) * (7/5)) - 1) = 68/147 := by
    rw [hmean]
    have hM' : M ≠ 0 := ne_of_gt hM
    have harg : (3 : ℚ)/2 * (7/5 * M) / ((42 * M + 21 * M / 10) / 43 * (7/5)) - 1
        = 68/147 := by
      field_simp
      ring
    rw [harg]
    exact min_eq_right (by norm_num)
  unfold FeatureExtractor.beatUpdate
  simp only [hfeed, hpush]
  rw [if_pos ⟨hcond, hcool⟩]
  exact ⟨rfl, hconf, by norm_num, by norm_num, rfl⟩

/-- Witness for claim C7, at `M = 1`, 43 feed ticks, last beat at 0 and
the spike at 121 ms. -/
theorem beat_fires_witness :
    (FeatureExtractor.beatUpdate (7/5) 120 ⟨FeatureExtractor.feedConst 1 43, 0⟩
        (3/2 * (7/5 * 1)) 121).isBeat = true ∧
    (FeatureExtractor.beatUpdate (7/5) 120 ⟨FeatureExtractor.feedConst 1 43, 0⟩
        (3/2 * (7/5 * 1)) 121).confidence = 68/147 ∧
    (0 : ℚ) < 68/147 ∧ (68 : ℚ)/147 ≤ 1 ∧
    (FeatureExtractor.beatUpdate (7/5) 120 ⟨FeatureExtractor.feedConst 1 43, 0⟩
        (3/2 * (7/5 * 1)) 121).state.lastBeat = 121 :=
  beat_fires_on_constant_history_spike 1 43 0 121 (by norm_num) (by norm_num) (by norm_num)

/-- Claim C7's cooldown reading "at least cooldownMs elapsed" fails at
the boundary: with exactly 120 ms elapsed since the last beat
(`now - last = cooldownMs`), the detector does not fire, because the code
requires strictly `now - lastBeat > cooldownMs`. -/
theorem beat_cooldown_boundary_counterexample :
    (FeatureExtractor.beatUpdate (7/5) 120 ⟨FeatureExtractor.feedConst 1 43, 0⟩
        (3/2 * (7/5 * 1)) 120).isBeat = false := by
  unfold FeatureExtractor.beatUpdate
  rw [if_neg (by
    intro h
    have := h.2
    norm_num at this)]

/-- Witness for claim C8: with pace "frenetic" (minDuration 2000 ms), a
qualifying drop at t = 3001 ms after a switch at t = 0 changes the
memory, records 3001, and 2000 < 3001. -/
theorem mode_switch_min_duration_witness :
    (DecisionEngine.brainSlowStep "frenetic" 7 ⟨0, 0⟩ 3001 ⟨true, 9/10⟩ (3/5)).lastModeChange
      = 3001 ∧
    DecisionEngine.minDuration "frenetic" < 3001 - (0 : ℤ) :=
  (mode_switch_min_duration "frenetic" 7).1 ⟨0, 0⟩ 3001 ⟨true, 9/10⟩ (3/5) (by
    unfold DecisionEngine.brainSlowStep DecisionEngine.shouldSwitch DecisionEngine.isDrop
      DecisionEngine.minDuration
    norm_num)




